import Mathlib

/-
Verification of the dashboard core services: Event Bus (src/js/services/eventBus.js),
widget lifecycle contract (src/js/widgets/baseWidget.js), auto-refresh coordinator
(src/js/services/realtime.js) and storage gateway (StorageService).

The JavaScript classes are embedded shallowly: mutable objects become explicit
state records, JS `Map`s become insertion-ordered association lists with JS `Map`
semantics (`set` updates in place or appends, `get` looks up, `delete` filters),
callbacks become identifiers whose behaviour is given by an environment, and a
`throw` becomes an explicit `Except`/flag.  All definitions are executable.
-/

namespace Dashboard

/-! ## Insertion-ordered string-keyed maps (JS `Map` semantics) -/

/-- Lookup in an insertion-ordered association list, mirroring JS `Map.get`
(returns the value of the unique binding for the key, scanning in order). -/
def mapGet? {α : Type} : List (String × α) → String → Option α
  | [], _ => none
  | p :: rest, k => if p.1 = k then some p.2 else mapGet? rest k

/-- JS `Map.has`. -/
def mapHas {α : Type} (m : List (String × α)) (k : String) : Bool :=
  (mapGet? m k).isSome

/-- JS `Map.set`: update the binding in place if the key is present,
otherwise append a new binding at the end (insertion order). -/
def mapSet {α : Type} : List (String × α) → String → α → List (String × α)
  | [], k, v => [(k, v)]
  | p :: rest, k, v => if p.1 = k then (k, v) :: rest else p :: mapSet rest k v

/-- JS `Map.delete`: remove the binding for the key.  A JS `Map` holds at most
one binding per key, so removing every binding with the key is the same
operation on every reachable map (and keeps the lemmas unconditional). -/
def mapDelete {α : Type} : List (String × α) → String → List (String × α)
  | [], _ => []
  | p :: rest, k => if p.1 = k then mapDelete rest k else p :: mapDelete rest k

/-- Remove the first occurrence of an element, mirroring the
`indexOf` + `splice(index, 1)` idiom of the source. -/
def removeFirst {α : Type} [DecidableEq α] : List α → α → List α
  | [], _ => []
  | x :: xs, a => if x = a then xs else x :: removeFirst xs a

theorem mapGet?_mapSet_self {α : Type} (m : List (String × α)) (k : String) (v : α) :
    mapGet? (mapSet m k v) k = some v := by
  induction m with
  | nil => simp [mapGet?, mapSet]
  | cons p rest ih =>
    by_cases h : p.1 = k
    · simp [mapGet?, mapSet, h]
    · simp [mapGet?, mapSet, h, ih]

theorem mapGet?_mapSet_ne {α : Type} (m : List (String × α)) (k k' : String) (v : α)
    (h : k' ≠ k) : mapGet? (mapSet m k v) k' = mapGet? m k' := by
  have hk : ¬ k = k' := fun hh => h hh.symm
  induction m with
  | nil => simp [mapGet?, mapSet, hk]
  | cons p rest ih =>
    by_cases hp : p.1 = k
    · subst hp
      simp [mapGet?, mapSet, hk]
    · simp [mapGet?, mapSet, hp, ih]

theorem mapGet?_mapDelete_self {α : Type} (m : List (String × α)) (k : String) :
    mapGet? (mapDelete m k) k = none := by
  induction m with
  | nil => rfl
  | cons p rest ih =>
    by_cases hp : p.1 = k
    · simp [mapDelete, hp, ih]
    · simp [mapGet?, mapDelete, hp, ih]

theorem mapGet?_mapDelete_ne {α : Type} (m : List (String × α)) (k k' : String)
    (h : k' ≠ k) : mapGet? (mapDelete m k) k' = mapGet? m k' := by
  have hk : ¬ k = k' := fun hh => h hh.symm
  induction m with
  | nil => simp [mapDelete]
  | cons p rest ih =>
    by_cases hp : p.1 = k
    · subst hp
      simp [mapGet?, mapDelete, hk, ih]
    · simp [mapGet?, mapDelete, hp, ih]

theorem mem_removeFirst {α : Type} [DecidableEq α] (xs : List α) (a x : α)
    (h : x ∈ removeFirst xs a) : x ∈ xs := by
  induction xs with
  | nil => simp [removeFirst] at h
  | cons y ys ih =>
    by_cases hy : y = a
    · simp [removeFirst, hy] at h
      exact List.mem_cons_of_mem _ h
    · simp [removeFirst, hy] at h
      rcases h with h | h
      · simp [h]
      · exact List.mem_cons_of_mem _ (ih h)

theorem removeFirst_of_not_mem {α : Type} [DecidableEq α] (xs : List α) (a : α)
    (h : a ∉ xs) : removeFirst xs a = xs := by
  induction xs with
  | nil => rfl
  | cons y ys ih =>
    have hy : y ≠ a := fun hh => h (by simp [hh])
    simp [removeFirst, hy, ih (fun hh => h (List.mem_cons_of_mem _ hh))]

theorem filter_removeFirst_pos {α : Type} [DecidableEq α] (p : α → Bool) (xs : List α)
    (a : α) (hp : p a = true) :
    (removeFirst xs a).filter p = removeFirst (xs.filter p) a := by
  induction xs with
  | nil => rfl
  | cons y ys ih =>
    by_cases hy : y = a
    · subst hy
      simp [removeFirst, hp]
    · by_cases hpy : p y = true
      · simp [removeFirst, hy, List.filter_cons, hpy, ih]
      · simp only [Bool.not_eq_true] at hpy
        simp [removeFirst, hy, List.filter_cons, hpy, ih]

theorem filter_removeFirst_neg {α : Type} [DecidableEq α] (p : α → Bool) (xs : List α)
    (a : α) (hp : p a = false) :
    (removeFirst xs a).filter p = xs.filter p := by
  induction xs with
  | nil => rfl
  | cons y ys ih =>
    by_cases hy : y = a
    · subst hy
      simp [removeFirst, List.filter_cons, hp]
    · by_cases hpy : p y = true
      · simp [removeFirst, hy, List.filter_cons, hpy, ih]
      · simp only [Bool.not_eq_true] at hpy
        simp [removeFirst, hy, List.filter_cons, hpy, ih]

/-! ## Event Bus (src/js/services/eventBus.js)

A user-supplied callback function reference is a `CbId`; distinct ids stand for
distinct function references.  `once` creates a fresh wrapper closure around the
callback; the wrapper's identity is a `Nat` tag supplied by the caller (distinct
tags stand for the distinct closure objects, matching JS reference equality).
A callback's behaviour when invoked is a finite list of bus mutations followed
by either a normal return or a throw. -/

/-- Identifier standing for a user-supplied callback function reference. -/
abbrev CbId := Nat

/-- A listener stored in the bus registry: either a plain callback passed to
`on`, or the `onceWrapper` closure created by `once` (capturing the event name
and the wrapped callback), or the wrapper created by `once` around a value that
is not a function (calling it throws a TypeError). -/
inductive Listener where
  | plain (c : CbId)
  | wrapOnce (eventName : String) (c : CbId) (wid : Nat)
  | wrapOnceBad (eventName : String) (wid : Nat)
deriving DecidableEq, Repr

/-- A bus mutation a callback body may perform while it runs. -/
inductive BusAction where
  | act_on (e : String) (l : Listener)
  | act_off (e : String) (l : Listener)
deriving DecidableEq, Repr

/-- Behaviour of a user callback when invoked: it performs its bus actions in
order and then either returns normally or throws. -/
structure CbBehavior where
  actions : List BusAction
  throws : Bool
deriving DecidableEq, Repr

/-- Environment assigning a behaviour to every callback reference. -/
abbrev CbEnv := CbId → CbBehavior

/-- State of `EventBus`: the `events` Map (event name to ordered listener
list) and the `maxListeners` cap (constructor default 50). -/
structure EventBus where
  events : List (String × List Listener)
  maxListeners : Nat
deriving DecidableEq, Repr

/-- `new EventBus()`: empty registry, cap 50. -/
def newEventBus : EventBus :=
  { events := [], maxListeners := 50 }

/-- Listener list currently registered for an event name (empty when the
name is absent from the registry). -/
def listenersOf (bus : EventBus) (e : String) : List Listener :=
  (mapGet? bus.events e).getD []

/-- `EventBus.on` (after the function type check): create the entry if absent,
refuse with `false` when the cap is reached, otherwise push the listener. -/
def EventBus.on (bus : EventBus) (e : String) (l : Listener) : EventBus × Bool :=
  let events1 := if mapHas bus.events e then bus.events else mapSet bus.events e []
  let listeners := (mapGet? events1 e).getD []
  if bus.maxListeners ≤ listeners.length then
    ({ bus with events := events1 }, false)
  else
    ({ bus with events := mapSet events1 e (listeners ++ [l]) }, true)

/-- `EventBus.off`: remove the first occurrence of the callback
(`indexOf` + `splice`); drop the event entry when the list becomes empty;
return whether a listener was removed. -/
def EventBus.off (bus : EventBus) (e : String) (l : Listener) : EventBus × Bool :=
  match mapGet? bus.events e with
  | none => (bus, false)
  | some listeners =>
    if l ∈ listeners then
      let rest := removeFirst listeners l
      if rest.isEmpty then ({ bus with events := mapDelete bus.events e }, true)
      else ({ bus with events := mapSet bus.events e rest }, true)
    else (bus, false)

/-- `EventBus.once`: wrap the callback in a fresh `onceWrapper` closure
(identity `wid`) and delegate to `on`. -/
def EventBus.once (bus : EventBus) (e : String) (c : CbId) (wid : Nat) : EventBus × Bool :=
  bus.on e (Listener.wrapOnce e c wid)

/-- Apply one bus action performed by a running callback body. -/
def runAction (bus : EventBus) : BusAction → EventBus
  | .act_on e l => (bus.on e l).1
  | .act_off e l => (bus.off e l).1

/-- Apply the actions of a callback body in order. -/
def runActions (bus : EventBus) (acts : List BusAction) : EventBus :=
  acts.foldl runAction bus

/-- Invoke one listener, as `emit` does inside its try/catch.  Returns the bus
after the invocation, whether the call completed without throwing, and the
user callback that ran (none for the broken wrapper, which throws on the spot).
The `onceWrapper` body is `callback(...args); this.off(eventName, onceWrapper)`:
the `off` runs only when the callback returned normally. -/
def invokeListener (env : CbEnv) (bus : EventBus) : Listener → EventBus × Bool × Option CbId
  | .plain c =>
      let b := env c
      (runActions bus b.actions, !b.throws, some c)
  | .wrapOnce e c wid =>
      let b := env c
      let bus1 := runActions bus b.actions
      if b.throws then (bus1, false, some c)
      else ((bus1.off e (Listener.wrapOnce e c wid)).1, true, some c)
  | .wrapOnceBad _ _ => (bus, false, none)

/-- Run `emit`'s `forEach` loop over the snapshot copy of the listener list,
threading the bus state, counting successful invocations and collecting the
user callbacks that were invoked. -/
def emitList (env : CbEnv) (bus : EventBus) : List Listener → EventBus × Nat × List CbId
  | [] => (bus, 0, [])
  | l :: ls =>
      let r := invokeListener env bus l
      let rest := emitList env r.1 ls
      (rest.1, (if r.2.1 then 1 else 0) + rest.2.1, r.2.2.toList ++ rest.2.2)

/-- `EventBus.emit`: `false` when the event name is absent; otherwise iterate
over a snapshot (`[...listeners]`) of the current listener list, catch each
listener's exception, and return `successCount > 0`.  The third component is
the instrumentation trace of user callbacks invoked by this emit. -/
def EventBus.emit (env : CbEnv) (bus : EventBus) (e : String) : EventBus × Bool × List CbId :=
  match mapGet? bus.events e with
  | none => (bus, false, [])
  | some listeners =>
      let r := emitList env bus listeners
      (r.1, decide (0 < r.2.1), r.2.2)

/-- `EventBus.listenerCount`. -/
def EventBus.listenerCount (bus : EventBus) (e : String) : Nat :=
  match mapGet? bus.events e with
  | none => 0
  | some ls => ls.length

/-- Top-level operations of the public bus interface, for reasoning about
arbitrary call sequences.  `opOn`/`opOff` pass a plain user callback,
`opOnce` additionally records the identity of the wrapper closure the call
creates, `opEmit` publishes an event. -/
inductive BusOp where
  | opOn (e : String) (c : CbId)
  | opOff (e : String) (c : CbId)
  | opOnce (e : String) (c : CbId) (wid : Nat)
  | opEmit (e : String)
deriving DecidableEq, Repr

/-- Run one top-level operation; the trace records, for each callback invoked,
the event name whose emission invoked it. -/
def runOp (env : CbEnv) (bus : EventBus) : BusOp → EventBus × List (String × CbId)
  | .opOn e c => ((bus.on e (Listener.plain c)).1, [])
  | .opOff e c => ((bus.off e (Listener.plain c)).1, [])
  | .opOnce e c wid => ((bus.once e c wid).1, [])
  | .opEmit e =>
      let r := bus.emit env e
      (r.1, r.2.2.map (fun c => (e, c)))

/-- Run a sequence of top-level operations, concatenating invocation traces. -/
def runOps (env : CbEnv) (bus : EventBus) : List BusOp → EventBus × List (String × CbId)
  | [] => (bus, [])
  | op :: ops =>
      let r := runOp env bus op
      let r2 := runOps env r.1 ops
      (r2.1, r.2 ++ r2.2)

/-- Whether invoking this listener runs the given user callback. -/
def Listener.mentions : Listener → CbId → Bool
  | .plain c', c => c' = c
  | .wrapOnce _ c' _, c => c' = c
  | .wrapOnceBad _ _, _ => false

/-- The user callback a listener runs when invoked, if any. -/
def Listener.invokedId : Listener → Option CbId
  | .plain c => some c
  | .wrapOnce _ c _ => some c
  | .wrapOnceBad _ _ => none

/-- Whether invoking this listener completes without throwing (this does not
depend on the bus state: the behaviour's throw flag decides it). -/
def listenerOk (env : CbEnv) : Listener → Bool
  | .plain c => !(env c).throws
  | .wrapOnce _ c _ => !(env c).throws
  | .wrapOnceBad _ _ => false

/-- No listener registered for event `e` runs callback `c`. -/
def cbFreeOn (bus : EventBus) (e : String) (c : CbId) : Bool :=
  (listenersOf bus e).all (fun l => ! l.mentions c)

/-- Whether a callback-body action registers a listener for `e` running `c`. -/
def BusAction.addsCb : BusAction → String → CbId → Bool
  | .act_on e' l, e, c => e' = e && l.mentions c
  | .act_off _ _, _, _ => false

/-- Whether a callback-body action removes a listener for `e` running `c`. -/
def BusAction.dropsCb : BusAction → String → CbId → Bool
  | .act_off e' l, e, c => e' = e && l.mentions c
  | .act_on _ _, _, _ => false

/-- No callback body in the environment ever registers a listener for `e`
that runs `c`. -/
def envAvoidsAdd (env : CbEnv) (e : String) (c : CbId) : Prop :=
  ∀ c', ∀ a ∈ (env c').actions, a.addsCb e c = false

/-- No callback body in the environment ever registers or removes a listener
for `e` that runs `c`. -/
def envAvoidsTouch (env : CbEnv) (e : String) (c : CbId) : Prop :=
  ∀ c', ∀ a ∈ (env c').actions, a.addsCb e c = false ∧ a.dropsCb e c = false

/-- Whether a top-level operation registers a listener for `e` running `c`. -/
def BusOp.registers : BusOp → String → CbId → Bool
  | .opOn e' c', e, c => e' = e && c' = c
  | .opOnce e' c' _, e, c => e' = e && c' = c
  | .opOff _ _, _, _ => false
  | .opEmit _, _, _ => false

/-! ## Event Bus: basic lemmas -/

theorem listeners_events1 (bus : EventBus) (e : String) :
    (mapGet? (if mapHas bus.events e then bus.events else mapSet bus.events e []) e).getD []
      = listenersOf bus e := by
  by_cases h : mapHas bus.events e = true
  · simp [h, listenersOf]
  · have hn : mapGet? bus.events e = none := by
      rcases hh : mapGet? bus.events e with _ | v
      · rfl
      · exact absurd (by simp [mapHas, hh]) h
    simp [h, mapGet?_mapSet_self, listenersOf, hn]

theorem events1_ne (bus : EventBus) (e e' : String) (h : e' ≠ e) :
    mapGet? (if mapHas bus.events e then bus.events else mapSet bus.events e []) e'
      = mapGet? bus.events e' := by
  by_cases hh : mapHas bus.events e = true
  · simp [hh]
  · simp [hh, mapGet?_mapSet_ne _ _ _ _ h]

theorem on_eq (bus : EventBus) (e : String) (l : Listener) :
    bus.on e l =
      if bus.maxListeners ≤ (listenersOf bus e).length then
        ({ bus with events := if mapHas bus.events e then bus.events else mapSet bus.events e [] },
          false)
      else
        ({ bus with events := mapSet (if mapHas bus.events e then bus.events else mapSet bus.events e [] ) e (listenersOf bus e ++ [l]) }, true) := by
  unfold EventBus.on
  simp only []
  rw [listeners_events1]

theorem on_maxListeners (bus : EventBus) (e : String) (l : Listener) :
    (bus.on e l).1.maxListeners = bus.maxListeners := by
  rw [on_eq]
  by_cases hc : bus.maxListeners ≤ (listenersOf bus e).length
  · rw [if_pos hc]
  · rw [if_neg hc]

theorem listenersOf_on_ne (bus : EventBus) (e e' : String) (l : Listener) (h : e' ≠ e) :
    listenersOf (bus.on e l).1 e' = listenersOf bus e' := by
  rw [on_eq]
  by_cases hc : bus.maxListeners ≤ (listenersOf bus e).length
  · rw [if_pos hc]
    show (mapGet? (if mapHas bus.events e then bus.events else mapSet bus.events e []) e').getD []
      = listenersOf bus e'
    rw [events1_ne bus e e' h]
    rfl
  · rw [if_neg hc]
    show (mapGet? (mapSet (if mapHas bus.events e then bus.events else mapSet bus.events e [] ) e (listenersOf bus e ++ [l])) e').getD [] = listenersOf bus e'
    rw [mapGet?_mapSet_ne _ _ _ _ h, events1_ne bus e e' h]
    rfl

theorem listenersOf_on_self (bus : EventBus) (e : String) (l : Listener) :
    listenersOf (bus.on e l).1 e
      = if bus.maxListeners ≤ (listenersOf bus e).length then listenersOf bus e
        else listenersOf bus e ++ [l] := by
  rw [on_eq]
  by_cases hc : bus.maxListeners ≤ (listenersOf bus e).length
  · rw [if_pos hc, if_pos hc]
    exact listeners_events1 bus e
  · rw [if_neg hc, if_neg hc]
    show (mapGet? (mapSet (if mapHas bus.events e then bus.events else mapSet bus.events e [] ) e (listenersOf bus e ++ [l])) e).getD [] = listenersOf bus e ++ [l]
    rw [mapGet?_mapSet_self]
    rfl

theorem on_ret (bus : EventBus) (e : String) (l : Listener) :
    (bus.on e l).2 = decide ((listenersOf bus e).length < bus.maxListeners) := by
  rw [on_eq]
  by_cases hc : bus.maxListeners ≤ (listenersOf bus e).length
  · rw [if_pos hc]
    simp [Nat.not_lt.mpr hc]
  · rw [if_neg hc]
    simp [Nat.lt_of_not_le hc]

theorem off_maxListeners (bus : EventBus) (e : String) (l : Listener) :
    (bus.off e l).1.maxListeners = bus.maxListeners := by
  unfold EventBus.off
  rcases h : mapGet? bus.events e with _ | listeners
  · rfl
  · by_cases hm : l ∈ listeners
    · by_cases he : (removeFirst listeners l).isEmpty <;> simp [h, hm, he]
    · simp [h, hm]

theorem listenersOf_off_ne (bus : EventBus) (e e' : String) (l : Listener) (h : e' ≠ e) :
    listenersOf (bus.off e l).1 e' = listenersOf bus e' := by
  unfold EventBus.off
  rcases hg : mapGet? bus.events e with _ | listeners
  · rfl
  · by_cases hm : l ∈ listeners
    · by_cases he : (removeFirst listeners l).isEmpty
      · simp [hg, hm, he, listenersOf, mapGet?_mapDelete_ne _ _ _ h]
      · simp [hg, hm, he, listenersOf, mapGet?_mapSet_ne _ _ _ _ h]
    · simp [hg, hm]

theorem off_not_mem (bus : EventBus) (e : String) (l : Listener)
    (h : l ∉ listenersOf bus e) : bus.off e l = (bus, false) := by
  unfold EventBus.off
  rcases hg : mapGet? bus.events e with _ | listeners
  · rfl
  · have : l ∉ listeners := by
      intro hm
      exact h (by simp [listenersOf, hg]; exact hm)
    simp [this]

theorem listenersOf_off_self (bus : EventBus) (e : String) (l : Listener)
    (h : l ∈ listenersOf bus e) :
    listenersOf (bus.off e l).1 e = removeFirst (listenersOf bus e) l
      ∧ (bus.off e l).2 = true := by
  unfold EventBus.off
  rcases hg : mapGet? bus.events e with _ | listeners
  · simp [listenersOf, hg] at h
  · have hls : listenersOf bus e = listeners := by simp [listenersOf, hg]
    rw [hls] at h
    by_cases he : (removeFirst listeners l).isEmpty
    · have hre : removeFirst listeners l = [] := by
        simpa [List.isEmpty_iff] using he
      refine ⟨?_, by simp [hg, h, he]⟩
      simp only [hg, h, if_true, he, hls, hre]
      simp [listenersOf, mapGet?_mapDelete_self]
    · refine ⟨?_, by simp [hg, h, he]⟩
      simp only [hg, h, if_true, he, hls]
      simp [listenersOf, mapGet?_mapSet_self]

/-! ## Event Bus: invariant and trace lemmas -/

theorem cbFreeOn_iff (bus : EventBus) (e : String) (c : CbId) :
    cbFreeOn bus e c = true ↔ ∀ l ∈ listenersOf bus e, l.mentions c = false := by
  simp [cbFreeOn, List.all_eq_true]

theorem cbFreeOn_on (bus : EventBus) (e e' : String) (c : CbId) (l : Listener)
    (hfree : cbFreeOn bus e c = true) (hl : e' = e → l.mentions c = false) :
    cbFreeOn (bus.on e' l).1 e c = true := by
  by_cases he : e = e'
  · subst he
    rw [cbFreeOn_iff] at hfree ⊢
    rw [listenersOf_on_self]
    by_cases hc : bus.maxListeners ≤ (listenersOf bus e).length
    · rw [if_pos hc]; exact hfree
    · rw [if_neg hc]
      intro x hx
      rcases List.mem_append.mp hx with hx | hx
      · exact hfree x hx
      · rw [List.mem_singleton.mp hx]
        exact hl rfl
  · rw [cbFreeOn_iff] at hfree ⊢
    rw [listenersOf_on_ne bus e' e l he]
    exact hfree

theorem cbFreeOn_off (bus : EventBus) (e e' : String) (c : CbId) (l : Listener)
    (hfree : cbFreeOn bus e c = true) :
    cbFreeOn (bus.off e' l).1 e c = true := by
  by_cases he : e = e'
  · subst he
    by_cases hm : l ∈ listenersOf bus e
    · rw [cbFreeOn_iff] at hfree ⊢
      rw [(listenersOf_off_self bus e l hm).1]
      intro x hx
      exact hfree x (mem_removeFirst _ _ _ hx)
    · rw [off_not_mem bus e l hm]
      exact hfree
  · rw [cbFreeOn_iff] at hfree ⊢
    rw [listenersOf_off_ne bus e' e l he]
    exact hfree

theorem cbFreeOn_runAction (bus : EventBus) (e : String) (c : CbId) (a : BusAction)
    (ha : a.addsCb e c = false) (hfree : cbFreeOn bus e c = true) :
    cbFreeOn (runAction bus a) e c = true := by
  cases a with
  | act_on e' l =>
      refine cbFreeOn_on bus e e' c l hfree ?_
      intro he
      subst he
      simpa [BusAction.addsCb] using ha
  | act_off e' l => exact cbFreeOn_off bus e e' c l hfree

theorem cbFreeOn_runActions (e : String) (c : CbId) (acts : List BusAction)
    (bus : EventBus) (ha : ∀ a ∈ acts, a.addsCb e c = false)
    (hfree : cbFreeOn bus e c = true) :
    cbFreeOn (runActions bus acts) e c = true := by
  induction acts generalizing bus with
  | nil => exact hfree
  | cons a rest ih =>
      have h1 := cbFreeOn_runAction bus e c a (ha a (by simp)) hfree
      exact ih (runAction bus a) (fun x hx => ha x (by simp [hx])) h1

theorem cbFreeOn_invoke (env : CbEnv) (bus : EventBus) (e : String) (c : CbId)
    (l : Listener) (henv : envAvoidsAdd env e c) (hfree : cbFreeOn bus e c = true) :
    cbFreeOn (invokeListener env bus l).1 e c = true := by
  cases l with
  | plain c' =>
      exact cbFreeOn_runActions e c (env c').actions bus (henv c') hfree
  | wrapOnce e' c' wid =>
      have h1 := cbFreeOn_runActions e c (env c').actions bus (henv c') hfree
      by_cases ht : (env c').throws
      · simpa [invokeListener, ht] using h1
      · simp only [invokeListener, ht, if_neg, Bool.false_eq_true, if_false]
        exact cbFreeOn_off _ e e' c _ h1
  | wrapOnceBad e' wid => exact hfree

theorem invoke_invokedId (env : CbEnv) (bus : EventBus) (l : Listener) :
    (invokeListener env bus l).2.2 = l.invokedId := by
  cases l with
  | plain c => rfl
  | wrapOnce e c wid =>
      by_cases ht : (env c).throws <;> simp [invokeListener, ht, Listener.invokedId]
  | wrapOnceBad e wid => rfl

theorem invoke_ok (env : CbEnv) (bus : EventBus) (l : Listener) :
    (invokeListener env bus l).2.1 = listenerOk env l := by
  cases l with
  | plain c => rfl
  | wrapOnce e c wid =>
      by_cases ht : (env c).throws <;> simp [invokeListener, ht, listenerOk]
  | wrapOnceBad e wid => rfl

theorem emitList_trace (env : CbEnv) (ls : List Listener) (bus : EventBus) :
    (emitList env bus ls).2.2 = ls.filterMap Listener.invokedId := by
  induction ls generalizing bus with
  | nil => rfl
  | cons l rest ih =>
      simp only [emitList, ih, invoke_invokedId, List.filterMap_cons]
      cases h : l.invokedId with
      | none => simp
      | some c => simp

theorem emitList_count (env : CbEnv) (ls : List Listener) (bus : EventBus) :
    (emitList env bus ls).2.1 = (ls.filter (listenerOk env)).length := by
  induction ls generalizing bus with
  | nil => rfl
  | cons l rest ih =>
      simp only [emitList, ih, invoke_ok, List.filter_cons]
      cases h : listenerOk env l with
      | false => simp
      | true => simp [Nat.add_comm]

theorem cbFreeOn_emitList (env : CbEnv) (e : String) (c : CbId) (ls : List Listener)
    (bus : EventBus) (henv : envAvoidsAdd env e c) (hfree : cbFreeOn bus e c = true) :
    cbFreeOn (emitList env bus ls).1 e c = true := by
  induction ls generalizing bus with
  | nil => exact hfree
  | cons l rest ih =>
      exact ih (invokeListener env bus l).1 (cbFreeOn_invoke env bus e c l henv hfree)

theorem emit_trace_snapshot (env : CbEnv) (bus : EventBus) (e : String) :
    (EventBus.emit env bus e).2.2 = (listenersOf bus e).filterMap Listener.invokedId := by
  unfold EventBus.emit
  cases h : mapGet? bus.events e with
  | none => simp [listenersOf, h]
  | some ls => simp [listenersOf, h, emitList_trace]

theorem emit_count (env : CbEnv) (bus : EventBus) (e : String) :
    (EventBus.emit env bus e).2.1
      = decide (0 < ((listenersOf bus e).filter (listenerOk env)).length) := by
  unfold EventBus.emit
  cases h : mapGet? bus.events e with
  | none => simp [listenersOf, h]
  | some ls => simp [listenersOf, h, emitList_count]

theorem cbFreeOn_emit (env : CbEnv) (bus : EventBus) (e e' : String) (c : CbId)
    (henv : envAvoidsAdd env e c) (hfree : cbFreeOn bus e c = true) :
    cbFreeOn (EventBus.emit env bus e').1 e c = true := by
  unfold EventBus.emit
  cases h : mapGet? bus.events e' with
  | none => exact hfree
  | some ls => exact cbFreeOn_emitList env e c ls bus henv hfree

theorem invokedId_mentions (l : Listener) (c : CbId) (h : l.invokedId = some c) :
    l.mentions c = true := by
  cases l with
  | plain c' =>
      simp [Listener.invokedId] at h
      simp [Listener.mentions, h]
  | wrapOnce e c' wid =>
      simp [Listener.invokedId] at h
      simp [Listener.mentions, h]
  | wrapOnceBad e wid => simp [Listener.invokedId] at h

theorem emit_trace_free (env : CbEnv) (bus : EventBus) (e : String) (c : CbId)
    (hfree : cbFreeOn bus e c = true) : c ∉ (EventBus.emit env bus e).2.2 := by
  rw [emit_trace_snapshot]
  intro hmem
  rcases List.mem_filterMap.mp hmem with ⟨l, hl, hid⟩
  have := (cbFreeOn_iff bus e c).mp hfree l hl
  rw [invokedId_mentions l c hid] at this
  exact Bool.true_eq_false.mp this

theorem runOp_free (env : CbEnv) (bus : EventBus) (e : String) (c : CbId) (op : BusOp)
    (henv : envAvoidsAdd env e c) (hop : op.registers e c = false)
    (hfree : cbFreeOn bus e c = true) :
    cbFreeOn (runOp env bus op).1 e c = true ∧ (e, c) ∉ (runOp env bus op).2 := by
  cases op with
  | opOn e' c' =>
      refine ⟨?_, by simp [runOp]⟩
      refine cbFreeOn_on bus e e' c _ hfree ?_
      intro he
      subst he
      simp only [BusOp.registers, Bool.and_eq_false_iff, decide_eq_false_iff_not] at hop
      rcases hop with h | h
      · exact absurd trivial h
      · simp [Listener.mentions, h]
  | opOff e' c' => exact ⟨cbFreeOn_off bus e e' c _ hfree, by simp [runOp]⟩
  | opOnce e' c' wid =>
      refine ⟨?_, by simp [runOp]⟩
      refine cbFreeOn_on bus e e' c _ hfree ?_
      intro he
      subst he
      simp only [BusOp.registers, Bool.and_eq_false_iff, decide_eq_false_iff_not] at hop
      rcases hop with h | h
      · exact absurd trivial h
      · simp [Listener.mentions, h]
  | opEmit e' =>
      refine ⟨cbFreeOn_emit env bus e e' c henv hfree, ?_⟩
      simp only [runOp]
      intro hmem
      rcases List.mem_map.mp hmem with ⟨x, hx, hpair⟩
      have he : e' = e := congrArg Prod.fst hpair
      have hx' : x = c := congrArg Prod.snd hpair
      subst he
      subst hx'
      exact emit_trace_free env bus e' x hfree hx

theorem runOps_free (env : CbEnv) (e : String) (c : CbId) (ops : List BusOp)
    (bus : EventBus) (henv : envAvoidsAdd env e c)
    (hops : ∀ op ∈ ops, op.registers e c = false)
    (hfree : cbFreeOn bus e c = true) :
    cbFreeOn (runOps env bus ops).1 e c = true ∧ (e, c) ∉ (runOps env bus ops).2 := by
  induction ops generalizing bus with
  | nil => exact ⟨hfree, by simp [runOps]⟩
  | cons op rest ih =>
      have h1 := runOp_free env bus e c op henv (hops op (by simp)) hfree
      have h2 := ih (runOp env bus op).1 (fun x hx => hops x (by simp [hx])) h1.1
      refine ⟨h2.1, ?_⟩
      simp only [runOps, List.mem_append]
      intro hmem
      rcases hmem with hmem | hmem
      · exact h1.2 hmem
      · exact h2.2 hmem

theorem removeFirst_length_le {α : Type} [DecidableEq α] (xs : List α) (a : α) :
    (removeFirst xs a).length ≤ xs.length := by
  induction xs with
  | nil => exact Nat.le_refl 0
  | cons y ys ih =>
    by_cases hy : y = a
    · simp [removeFirst, hy]
    · simp only [removeFirst, hy, if_false, List.length_cons]
      exact Nat.succ_le_succ ih

/-! ## Event Bus: the listeners for an event that run a given callback -/

/-- Listeners registered for `e` whose invocation runs callback `c`. -/
def mentioners (bus : EventBus) (e : String) (c : CbId) : List Listener :=
  (listenersOf bus e).filter (fun l => l.mentions c)

theorem cbFreeOn_iff_mentioners (bus : EventBus) (e : String) (c : CbId) :
    cbFreeOn bus e c = true ↔ mentioners bus e c = [] := by
  rw [cbFreeOn_iff, mentioners, List.filter_eq_nil_iff]
  constructor
  · intro h l hl hm
    rw [h l hl] at hm
    exact Bool.false_ne_true hm
  · intro h l hl
    have := h l hl
    revert this
    cases l.mentions c <;> simp

theorem mentioners_on_of_not_mentions (bus : EventBus) (e e' : String) (c : CbId)
    (l : Listener) (hl : l.mentions c = false) :
    mentioners (bus.on e' l).1 e c = mentioners bus e c := by
  by_cases he : e = e'
  · subst he
    unfold mentioners
    rw [listenersOf_on_self]
    by_cases hc : bus.maxListeners ≤ (listenersOf bus e).length
    · rw [if_pos hc]
    · rw [if_neg hc, List.filter_append]
      simp [hl]
  · unfold mentioners
    rw [listenersOf_on_ne bus e' e l he]

theorem mentioners_off_ne (bus : EventBus) (e e' : String) (c : CbId) (l : Listener)
    (he : e ≠ e') : mentioners (bus.off e' l).1 e c = mentioners bus e c := by
  unfold mentioners
  rw [listenersOf_off_ne bus e' e l he]

theorem mentioners_off_self_pos (bus : EventBus) (e : String) (c : CbId) (l : Listener)
    (hl : l.mentions c = true) :
    mentioners (bus.off e l).1 e c = removeFirst (mentioners bus e c) l := by
  by_cases hm : l ∈ listenersOf bus e
  · unfold mentioners
    rw [(listenersOf_off_self bus e l hm).1]
    exact filter_removeFirst_pos _ _ _ hl
  · rw [off_not_mem bus e l hm]
    have : l ∉ mentioners bus e c := fun hx => hm (List.mem_of_mem_filter hx)
    rw [removeFirst_of_not_mem _ _ this]

theorem mentioners_off_of_not_mentions (bus : EventBus) (e e' : String) (c : CbId)
    (l : Listener) (hl : l.mentions c = false) :
    mentioners (bus.off e' l).1 e c = mentioners bus e c := by
  by_cases he : e = e'
  · subst he
    by_cases hm : l ∈ listenersOf bus e
    · unfold mentioners
      rw [(listenersOf_off_self bus e l hm).1]
      exact filter_removeFirst_neg _ _ _ hl
    · rw [off_not_mem bus e l hm]
  · exact mentioners_off_ne bus e e' c l he

theorem mentioners_runAction_touchfree (bus : EventBus) (e : String) (c : CbId)
    (a : BusAction) (ha : a.addsCb e c = false) (hd : a.dropsCb e c = false) :
    mentioners (runAction bus a) e c = mentioners bus e c := by
  cases a with
  | act_on e' l =>
      show mentioners (bus.on e' l).1 e c = mentioners bus e c
      by_cases he : e' = e
      · subst he
        have hl : l.mentions c = false := by simpa [BusAction.addsCb] using ha
        exact mentioners_on_of_not_mentions bus e' e' c l hl
      · unfold mentioners
        rw [listenersOf_on_ne bus e' e l (fun hh => he hh.symm)]
  | act_off e' l =>
      show mentioners (bus.off e' l).1 e c = mentioners bus e c
      by_cases he : e' = e
      · subst he
        have hl : l.mentions c = false := by simpa [BusAction.dropsCb] using hd
        exact mentioners_off_of_not_mentions bus e' e' c l hl
      · exact mentioners_off_ne bus e e' c l (fun hh => he hh.symm)

theorem mentioners_runActions_touchfree (e : String) (c : CbId) (acts : List BusAction)
    (bus : EventBus)
    (ha : ∀ a ∈ acts, a.addsCb e c = false ∧ a.dropsCb e c = false) :
    mentioners (runActions bus acts) e c = mentioners bus e c := by
  induction acts generalizing bus with
  | nil => rfl
  | cons a rest ih =>
      have h1 := mentioners_runAction_touchfree bus e c a (ha a (by simp)).1 (ha a (by simp)).2
      calc mentioners (runActions (runAction bus a) rest) e c
          = mentioners (runAction bus a) e c := ih (runAction bus a) (fun x hx => ha x (by simp [hx]))
        _ = mentioners bus e c := h1

/-- Invoking a non-throwing `onceWrapper` whose wrapper is the only listener
for `e` running `c` leaves the bus with no listener for `e` running `c`:
the wrapper removes itself right after the callback returns. -/
theorem invoke_wrapOnce_clears (env : CbEnv) (bus : EventBus) (e : String) (c : CbId)
    (wid : Nat) (henv : envAvoidsTouch env e c) (ht : (env c).throws = false)
    (hm : mentioners bus e c = [Listener.wrapOnce e c wid]) :
    cbFreeOn (invokeListener env bus (Listener.wrapOnce e c wid)).1 e c = true := by
  have hstep : (invokeListener env bus (Listener.wrapOnce e c wid)).1
      = ((runActions bus (env c).actions).off e (Listener.wrapOnce e c wid)).1 := by
    simp [invokeListener, ht]
  rw [hstep, cbFreeOn_iff_mentioners]
  have h1 : mentioners (runActions bus (env c).actions) e c = [Listener.wrapOnce e c wid] := by
    rw [mentioners_runActions_touchfree e c (env c).actions bus (henv c), hm]
  rw [mentioners_off_self_pos _ e c _ (by simp [Listener.mentions]), h1]
  simp [removeFirst]

/-! ## Event Bus: the listener cap invariant -/

/-- Every event name's listener list is within the configured cap. -/
def busBounded (bus : EventBus) : Prop :=
  ∀ e, (listenersOf bus e).length ≤ bus.maxListeners

theorem busBounded_on (bus : EventBus) (e : String) (l : Listener)
    (h : busBounded bus) : busBounded (bus.on e l).1 := by
  intro e''
  rw [on_maxListeners]
  by_cases he : e'' = e
  · subst he
    rw [listenersOf_on_self]
    by_cases hc : bus.maxListeners ≤ (listenersOf bus e'').length
    · rw [if_pos hc]
      exact h e''
    · rw [if_neg hc]
      simp only [List.length_append, List.length_singleton]
      exact Nat.lt_of_not_le hc
  · rw [listenersOf_on_ne bus e e'' l he]
    exact h e''

theorem busBounded_off (bus : EventBus) (e : String) (l : Listener)
    (h : busBounded bus) : busBounded (bus.off e l).1 := by
  intro e''
  rw [off_maxListeners]
  by_cases he : e'' = e
  · subst he
    by_cases hm : l ∈ listenersOf bus e''
    · rw [(listenersOf_off_self bus e'' l hm).1]
      exact Nat.le_trans (removeFirst_length_le _ _) (h e'')
    · rw [off_not_mem bus e'' l hm]
      exact h e''
  · rw [listenersOf_off_ne bus e e'' l he]
    exact h e''

theorem runAction_max (bus : EventBus) (a : BusAction) :
    (runAction bus a).maxListeners = bus.maxListeners := by
  cases a with
  | act_on e l => exact on_maxListeners bus e l
  | act_off e l => exact off_maxListeners bus e l

theorem busBounded_runAction (bus : EventBus) (a : BusAction)
    (h : busBounded bus) : busBounded (runAction bus a) := by
  cases a with
  | act_on e l => exact busBounded_on bus e l h
  | act_off e l => exact busBounded_off bus e l h

theorem runActions_max (acts : List BusAction) (bus : EventBus) :
    (runActions bus acts).maxListeners = bus.maxListeners := by
  induction acts generalizing bus with
  | nil => rfl
  | cons a rest ih => exact (ih (runAction bus a)).trans (runAction_max bus a)

theorem busBounded_runActions (acts : List BusAction) (bus : EventBus)
    (h : busBounded bus) : busBounded (runActions bus acts) := by
  induction acts generalizing bus with
  | nil => exact h
  | cons a rest ih => exact ih (runAction bus a) (busBounded_runAction bus a h)

theorem invoke_max (env : CbEnv) (bus : EventBus) (l : Listener) :
    (invokeListener env bus l).1.maxListeners = bus.maxListeners := by
  cases l with
  | plain c => exact runActions_max _ bus
  | wrapOnce e c wid =>
      by_cases ht : (env c).throws
      · simp [invokeListener, ht, runActions_max]
      · simp [invokeListener, ht, off_maxListeners, runActions_max]
  | wrapOnceBad e wid => rfl

theorem busBounded_invoke (env : CbEnv) (bus : EventBus) (l : Listener)
    (h : busBounded bus) : busBounded (invokeListener env bus l).1 := by
  cases l with
  | plain c => exact busBounded_runActions _ bus h
  | wrapOnce e c wid =>
      by_cases ht : (env c).throws
      · simpa [invokeListener, ht] using busBounded_runActions _ bus h
      · simp only [invokeListener, ht, Bool.false_eq_true, if_false]
        exact busBounded_off _ e _ (busBounded_runActions _ bus h)
  | wrapOnceBad e wid => exact h

theorem emitList_max (env : CbEnv) (ls : List Listener) (bus : EventBus) :
    (emitList env bus ls).1.maxListeners = bus.maxListeners := by
  induction ls generalizing bus with
  | nil => rfl
  | cons l rest ih => exact (ih _).trans (invoke_max env bus l)

theorem busBounded_emitList (env : CbEnv) (ls : List Listener) (bus : EventBus)
    (h : busBounded bus) : busBounded (emitList env bus ls).1 := by
  induction ls generalizing bus with
  | nil => exact h
  | cons l rest ih => exact ih _ (busBounded_invoke env bus l h)

theorem emit_max (env : CbEnv) (bus : EventBus) (e : String) :
    (EventBus.emit env bus e).1.maxListeners = bus.maxListeners := by
  unfold EventBus.emit
  cases h : mapGet? bus.events e with
  | none => rfl
  | some ls => exact emitList_max env ls bus

theorem busBounded_emit (env : CbEnv) (bus : EventBus) (e : String)
    (h : busBounded bus) : busBounded (EventBus.emit env bus e).1 := by
  unfold EventBus.emit
  cases hh : mapGet? bus.events e with
  | none => exact h
  | some ls => exact busBounded_emitList env ls bus h

theorem runOp_max (env : CbEnv) (bus : EventBus) (op : BusOp) :
    (runOp env bus op).1.maxListeners = bus.maxListeners := by
  cases op with
  | opOn e c => exact on_maxListeners bus e _
  | opOff e c => exact off_maxListeners bus e _
  | opOnce e c wid => exact on_maxListeners bus e _
  | opEmit e => exact emit_max env bus e

theorem busBounded_runOp (env : CbEnv) (bus : EventBus) (op : BusOp)
    (h : busBounded bus) : busBounded (runOp env bus op).1 := by
  cases op with
  | opOn e c => exact busBounded_on bus e _ h
  | opOff e c => exact busBounded_off bus e _ h
  | opOnce e c wid => exact busBounded_on bus e _ h
  | opEmit e => exact busBounded_emit env bus e h

theorem runOps_max (env : CbEnv) (ops : List BusOp) (bus : EventBus) :
    (runOps env bus ops).1.maxListeners = bus.maxListeners := by
  induction ops generalizing bus with
  | nil => rfl
  | cons op rest ih => exact (ih _).trans (runOp_max env bus op)

theorem busBounded_runOps (env : CbEnv) (ops : List BusOp) (bus : EventBus)
    (h : busBounded bus) : busBounded (runOps env bus ops).1 := by
  induction ops generalizing bus with
  | nil => exact h
  | cons op rest ih => exact ih _ (busBounded_runOp env bus op h)

theorem runOps_replicate_emit_fst (env : CbEnv) (e : String) (m : Nat) (bus : EventBus) :
    ∀ q ∈ (runOps env bus (List.replicate m (BusOp.opEmit e))).2, q.1 = e := by
  induction m generalizing bus with
  | zero =>
      intro q hq
      simp [runOps] at hq
  | succ m ih =>
      intro q hq
      rw [List.replicate_succ] at hq
      simp only [runOps, runOp, List.mem_append] at hq
      rcases hq with hq | hq
      · rcases List.mem_map.mp hq with ⟨x, hx, hpair⟩
        rw [← hpair]
      · exact ih _ q hq

/-! ## Widget lifecycle contract (src/js/widgets/baseWidget.js)

The widget's DOM container is modelled by what is rendered into it
(`content`), the `widget--loading` class on it, the loading overlay the
loading service injects into it, and the container-level `retry` listener
`showErrorState` arms.  `loadData()`/`render()` are abstract in the base
class; their outcome on a given refresh is an `Except` parameter.  The
loading-overlay effect of `services.loading.showElementLoading` /
`hideElementLoading` is modelled from the spec (that service's source is
not part of the embedded core): it toggles a busy indicator inside the
container, which `innerHTML` assignments wipe. -/

/-- What is currently rendered inside the widget's container. -/
inductive ContainerContent where
  | initial
  | normal
  | errorPanel (message : String)
  | cleared
deriving DecidableEq, Repr

/-- State of a `BaseWidget` instance, together with the container bits it
owns.  `refreshTimer` is the `refreshInterval` handle (`none` when no timer
is scheduled). -/
structure Widget where
  isInitialized : Bool
  isLoading : Bool
  hasContainer : Bool
  content : ContainerContent
  loadingClass : Bool
  loadingOverlay : Bool
  retryArmed : Bool
  refreshTimer : Option Nat
  autoRefreshEnabled : Bool
  refreshIntervalMs : Nat
  resizeListenerAttached : Bool
deriving DecidableEq, Repr

/-- Events the lifecycle publishes on the bus during `refresh`. -/
inductive WidgetEvent where
  | widgetRefreshed (name : String)
  | widgetError (name : String) (message : String)
deriving DecidableEq, Repr

/-- `BaseWidget.setLoadingState`: set the flag, toggle the
`widget--loading` class and the loading overlay. -/
def setLoadingState (w : Widget) (b : Bool) : Widget :=
  if b then { w with isLoading := true, loadingClass := true, loadingOverlay := true }
  else { w with isLoading := false, loadingClass := false, loadingOverlay := false }

/-- `error.message || 'An error occurred while loading data'`. -/
def errMessage (raw : String) : String :=
  if raw = "" then "An error occurred while loading data" else raw

/-- `BaseWidget.showErrorState`: replace the container's content with the
error panel markup (message plus a Retry button), which wipes the loading
overlay node, and arm the one-shot container-level `retry` listener. -/
def showErrorState (w : Widget) (message : String) : Widget :=
  { w with content := ContainerContent.errorPanel message,
           loadingOverlay := false,
           retryArmed := true }

/-- `BaseWidget.handleError`: publish `widget:error` with the widget name
and the error, then render the error state with the error's message (or the
fallback text when the message is empty). -/
def handleError (w : Widget) (name : String) (errMsg : String) : Widget × List WidgetEvent :=
  (showErrorState w (errMessage errMsg), [WidgetEvent.widgetError name errMsg])

/-- Result of one `refresh()` call: the widget afterwards, the events it
published, the arguments of its `setLoadingState` calls in order, and
whether `loadData()` was invoked. -/
structure RefreshResult where
  widget : Widget
  events : List WidgetEvent
  loadingCalls : List Bool
  loadDataCalled : Bool
deriving DecidableEq, Repr

/-- `BaseWidget.refresh`: no-op when already loading; otherwise
`setLoadingState(true)`, `loadData()`, `render()`,
publish `widget:refreshed`, with `handleError` on a throw from either step
and `setLoadingState(false)` in the `finally` block.  The outcomes of the
abstract `loadData`/`render` overrides are passed as `Except` values whose
`error` carries the thrown error's message. -/
def Widget.refresh (w : Widget) (name : String)
    (loadResult : Except String Unit) (renderResult : Except String Unit) : RefreshResult :=
  if w.isLoading then
    { widget := w, events := [], loadingCalls := [], loadDataCalled := false }
  else
    let w1 := setLoadingState w true
    match loadResult with
    | Except.error msg =>
        let r := handleError w1 name msg
        { widget := setLoadingState r.1 false, events := r.2,
          loadingCalls := [true, false], loadDataCalled := true }
    | Except.ok _ =>
        match renderResult with
        | Except.error msg =>
            let r := handleError w1 name msg
            { widget := setLoadingState r.1 false, events := r.2,
              loadingCalls := [true, false], loadDataCalled := true }
        | Except.ok _ =>
            let w2 := { w1 with content := ContainerContent.normal }
            { widget := setLoadingState w2 false,
              events := [WidgetEvent.widgetRefreshed name],
              loadingCalls := [true, false], loadDataCalled := true }

/-- `BaseWidget.stopAutoRefresh`: clear the interval handle if one exists.
The second component is the ambient set of live timer handles
(`clearInterval` removes the handle from it). -/
def Widget.stopAutoRefresh (w : Widget) (live : List Nat) : Widget × List Nat :=
  match w.refreshTimer with
  | some id => ({ w with refreshTimer := none }, removeFirst live id)
  | none => (w, live)

/-- `BaseWidget.destroy`: stop the auto-refresh timer, detach the window
resize listener, clear the container's content (`innerHTML = ''`, guarded
by `if (this.container)`), and reset `isInitialized`.  Total: no code path
throws. -/
def Widget.destroy (w : Widget) (live : List Nat) : Widget × List Nat :=
  let r := w.stopAutoRefresh live
  let w1 := { r.1 with resizeListenerAttached := false }
  let w2 := if w1.hasContainer then
      { w1 with content := ContainerContent.cleared, loadingOverlay := false }
    else w1
  ({ w2 with isInitialized := false }, r.2)

/-! ## Auto-Refresh Coordinator (src/js/services/realtime.js)

Timer handles returned by `setInterval` are modelled by a counter
`nextTimerId` (starting at 1: browser handles are positive, and the source
tests handles for truthiness); `liveTimers` is the ambient set of handles
that have not been cleared.  A widget has an active timer when its entry in
the `intervals` Map refers to a live handle. -/

/-- State of `RealtimeService` plus the ambient timer table. -/
structure RTState where
  intervals : List (String × Nat)
  refreshRates : List (String × Nat)
  isOnline : Bool
  liveTimers : List Nat
  nextTimerId : Nat
deriving DecidableEq, Repr

/-- The constructor's `refreshRates` object. -/
def defaultRates : List (String × Nat) :=
  [("announcements", 600000), ("tasks", 300000), ("calendar", 600000),
   ("tickets", 300000), ("shortcuts", 0)]

/-- `new RealtimeService(...)` with the given `navigator.onLine` value. -/
def newRealtime (online : Bool) : RTState :=
  { intervals := [], refreshRates := defaultRates, isOnline := online,
    liveTimers := [], nextTimerId := 1 }

/-- `RealtimeService.stopWidgetRefresh`: clear and forget the widget's
interval if the stored handle is truthy. -/
def RTState.stopWidgetRefresh (st : RTState) (w : String) : RTState :=
  let id := (mapGet? st.intervals w).getD 0
  if id = 0 then st
  else { st with liveTimers := removeFirst st.liveTimers id,
                 intervals := mapDelete st.intervals w }

/-- `RealtimeService.startWidgetRefresh`: stop any prior timer for the
name, then (when online and the interval is positive) schedule a fresh
recurring timer and record its handle. -/
def RTState.startWidgetRefresh (st : RTState) (w : String) (interval : Nat) : RTState :=
  let st1 := st.stopWidgetRefresh w
  if st1.isOnline = false ∨ interval = 0 then st1
  else
    { st1 with liveTimers := st1.liveTimers ++ [st1.nextTimerId],
               intervals := mapSet st1.intervals w st1.nextTimerId,
               nextTimerId := st1.nextTimerId + 1 }

/-- `RealtimeService.startAutoRefresh`: start every configured widget with a
positive interval. -/
def RTState.startAutoRefresh (st : RTState) : RTState :=
  st.refreshRates.foldl (fun s p => if 0 < p.2 then s.startWidgetRefresh p.1 p.2 else s) st

/-- `RealtimeService.pauseAutoRefresh`: clear every interval in the Map
without touching the Map itself. -/
def RTState.pauseAutoRefresh (st : RTState) : RTState :=
  { st with liveTimers := st.intervals.foldl (fun lt p => removeFirst lt p.2) st.liveTimers }

/-- `RealtimeService.resumeAutoRefresh`: `intervals.clear()` then
`startAutoRefresh()`. -/
def RTState.resumeAutoRefresh (st : RTState) : RTState :=
  RTState.startAutoRefresh { st with intervals := [] }

/-- A widget has an active (live) auto-refresh timer. -/
def RTState.isActive (st : RTState) (w : String) : Bool :=
  match mapGet? st.intervals w with
  | some id => decide (id ∈ st.liveTimers)
  | none => false

/-- The configuration assigns the widget a positive refresh rate. -/
def RTState.ratePositive (st : RTState) (w : String) : Bool :=
  match mapGet? st.refreshRates w with
  | some i => decide (0 < i)
  | none => false

/-! ## Storage gateway (StorageService)

JSON values are modelled with integer numbers (the widget payloads the
gateway stores are plain records, arrays, strings, booleans and small
integers).  The platform's `JSON.stringify`/`JSON.parse` pair is passed to
the gateway operations as an explicit codec, with a concrete executable
codec (`jsonStringify`/`jsonParse`) provided below for instantiation. -/

/-- A JSON value (JS numbers restricted to integers). -/
inductive JValue where
  | null
  | bool (b : Bool)
  | num (n : Int)
  | str (s : String)
  | arr (elems : List JValue)
  | obj (fields : List (String × JValue))

/-- JS truthiness of a value (`NaN` and `undefined` are not modelled). -/
def JValue.truthy : JValue → Bool
  | JValue.null => false
  | JValue.bool b => b
  | JValue.num n => decide (n ≠ 0)
  | JValue.str s => decide (s ≠ "")
  | JValue.arr _ => true
  | JValue.obj _ => true

/-- Contents of the two backing stores: the browser's string-valued
`localStorage` and the service's in-memory `Map` fallback (which stores the
values themselves, unserialized). -/
structure StorageState where
  localStore : List (String × String)
  memoryStore : List (String × JValue)

/-- The `dashboard_` key namespace applied by the service. -/
def fullKey (k : String) : String := "dashboard_" ++ k

/-- `StorageService.getItem`: in localStorage mode read the raw string and
return `item ? JSON.parse(item) : null` with a parse failure caught and
turned into `null`; in memory mode return `memoryStorage.get(fullKey) || null`. -/
def getItem (parse : String → Option JValue) (avail : Bool) (st : StorageState)
    (k : String) : JValue :=
  if avail then
    match mapGet? st.localStore (fullKey k) with
    | none => JValue.null
    | some item =>
        if item = "" then JValue.null
        else match parse item with
             | some v => v
             | none => JValue.null
  else
    match mapGet? st.memoryStore (fullKey k) with
    | none => JValue.null
    | some v => if v.truthy then v else JValue.null

/-- `StorageService.setItem`: serialize into localStorage, or store the raw
value in the memory fallback; returns the success flag. -/
def setItem (stringify : JValue → String) (avail : Bool) (st : StorageState)
    (k : String) (v : JValue) : StorageState × Bool :=
  if avail then
    ({ st with localStore := mapSet st.localStore (fullKey k) (stringify v) }, true)
  else
    ({ st with memoryStore := mapSet st.memoryStore (fullKey k) v }, true)

/-! ### A concrete executable JSON codec (platform `JSON.stringify`/`JSON.parse`) -/

/-- Escape a character for a JSON string literal (quote and backslash). -/
def escapeChar (c : Char) : String :=
  if c = '"' then "\\\"" else if c = '\\' then "\\\\" else String.singleton c

/-- Escape a string for a JSON string literal. -/
def escapeString (s : String) : String :=
  String.join (s.data.map escapeChar)

mutual

/-- `JSON.stringify` for the modelled values (no spacing, like the JS default). -/
def jsonStringify : JValue → String
  | JValue.null => "null"
  | JValue.bool true => "true"
  | JValue.bool false => "false"
  | JValue.num n => toString n
  | JValue.str s => "\"" ++ escapeString s ++ "\""
  | JValue.arr es => "[" ++ String.intercalate "," (jsonStringifyList es) ++ "]"
  | JValue.obj fs => "\x7b" ++ String.intercalate "," (jsonStringifyFields fs) ++ "\x7d"

/-- Stringify the elements of an array. -/
def jsonStringifyList : List JValue → List String
  | [] => []
  | v :: vs => jsonStringify v :: jsonStringifyList vs

/-- Stringify the fields of an object. -/
def jsonStringifyFields : List (String × JValue) → List String
  | [] => []
  | (k, v) :: ps => ("\"" ++ escapeString k ++ "\":" ++ jsonStringify v) :: jsonStringifyFields ps

end

/-- Skip JSON whitespace. -/
def skipWs : List Char → List Char
  | c :: cs => if c = ' ' ∨ c = '\n' ∨ c = '\t' ∨ c = '\r' then skipWs cs else c :: cs
  | [] => []

/-- Match an expected literal character sequence. -/
def expectLit : List Char → List Char → Option (List Char)
  | [], cs => some cs
  | t :: ts, c :: cs => if c = t then expectLit ts cs else none
  | _ :: _, [] => none

/-- Parse the body of a JSON string literal after the opening quote
(escapes limited to quote and backslash, as produced by the stringifier). -/
def parseStringBody (fuel : Nat) (cs : List Char) : Option (String × List Char) :=
  match fuel, cs with
  | 0, _ => none
  | _, [] => none
  | fuel + 1, c :: rest =>
      if c = '"' then some ("", rest)
      else if c = '\\' then
        match rest with
        | d :: ds =>
            if d = '"' ∨ d = '\\' then
              (parseStringBody fuel ds).map (fun p => (String.singleton d ++ p.1, p.2))
            else none
        | [] => none
      else (parseStringBody fuel rest).map (fun p => (String.singleton c ++ p.1, p.2))

/-- Split off a maximal run of leading decimal digits. -/
def takeDigits : List Char → List Char × List Char
  | c :: cs => if c.isDigit then
      ((takeDigits cs).1.cons c, (takeDigits cs).2)
    else ([], c :: cs)
  | [] => ([], [])

/-- Decimal value of a digit run. -/
def digitsToNat (ds : List Char) : Nat :=
  ds.foldl (fun acc c => acc * 10 + (c.toNat - 48)) 0

mutual

/-- Recursive-descent `JSON.parse` (fuel-bounded; numbers restricted to
integers, matching the modelled values). -/
def parseVal : Nat → List Char → Option (JValue × List Char)
  | 0, _ => none
  | fuel + 1, cs0 =>
      match skipWs cs0 with
      | [] => none
      | c :: rest =>
          if c = 'n' then (expectLit ['u', 'l', 'l'] rest).map (fun r => (JValue.null, r))
          else if c = 't' then (expectLit ['r', 'u', 'e'] rest).map (fun r => (JValue.bool true, r))
          else if c = 'f' then (expectLit ['a', 'l', 's', 'e'] rest).map (fun r => (JValue.bool false, r))
          else if c = '"' then (parseStringBody (fuel + 1) rest).map (fun p => (JValue.str p.1, p.2))
          else if c = '-' then
            match takeDigits rest with
            | ([], _) => none
            | (ds, r) => some (JValue.num (-(digitsToNat ds : Int)), r)
          else if c.isDigit then
            match takeDigits (c :: rest) with
            | ([], _) => none
            | (ds, r) => some (JValue.num (digitsToNat ds : Int), r)
          else if c = Char.ofNat 91 then
            match skipWs rest with
            | d :: r2 =>
                if d = Char.ofNat 93 then some (JValue.arr [], r2)
                else parseElems fuel (d :: r2) |>.map (fun p => (JValue.arr p.1, p.2))
            | [] => none
          else if c = Char.ofNat 123 then
            match skipWs rest with
            | d :: r2 =>
                if d = Char.ofNat 125 then some (JValue.obj [], r2)
                else parseFields fuel (d :: r2) |>.map (fun p => (JValue.obj p.1, p.2))
            | [] => none
          else none

/-- Parse a non-empty comma-separated element list up to the closing bracket. -/
def parseElems : Nat → List Char → Option (List JValue × List Char)
  | 0, _ => none
  | fuel + 1, cs =>
      (parseVal fuel cs).bind (fun p =>
        match skipWs p.2 with
        | d :: r2 =>
            if d = ',' then (parseElems fuel r2).map (fun q => (p.1 :: q.1, q.2))
            else if d = Char.ofNat 93 then some ([p.1], r2)
            else none
        | [] => none)

/-- Parse a non-empty comma-separated field list up to the closing brace. -/
def parseFields : Nat → List Char → Option (List (String × JValue) × List Char)
  | 0, _ => none
  | fuel + 1, cs =>
      match skipWs cs with
      | c :: rest =>
          if c = '"' then
            (parseStringBody (fuel + 1) rest).bind (fun kp =>
              match skipWs kp.2 with
              | d :: r2 =>
                  if d = ':' then
                    (parseVal fuel r2).bind (fun vp =>
                      match skipWs vp.2 with
                      | d2 :: r3 =>
                          if d2 = ',' then
                            (parseFields fuel r3).map (fun q => ((kp.1, vp.1) :: q.1, q.2))
                          else if d2 = Char.ofNat 125 then some ([(kp.1, vp.1)], r3)
                          else none
                      | [] => none)
                  else none
              | [] => none)
          else none
      | [] => none

end

/-- `JSON.parse`: parse the whole string (allowing trailing whitespace),
failing with `none` where the JS function throws a `SyntaxError`. -/
def jsonParse (s : String) : Option JValue :=
  match parseVal (2 * s.length + 4) s.data with
  | some (v, rest) => if (skipWs rest).isEmpty then some v else none
  | none => none

/-! ## Public-interface arguments for `on`/`once` (the function type check) -/

/-- A JS value passed as the callback argument: a function reference or not. -/
inductive JsArg where
  | fn (c : CbId)
  | notFn
deriving DecidableEq, Repr

/-- `EventBus.on` at the public interface: `typeof callback !== 'function'`
throws `Error('Callback must be a function')` before anything else. -/
def EventBus.onArg (bus : EventBus) (e : String) : JsArg → Except String (EventBus × Bool)
  | JsArg.fn c => Except.ok (bus.on e (Listener.plain c))
  | JsArg.notFn => Except.error "Callback must be a function"

/-- `EventBus.once` at the public interface: it wraps the callback value in
a fresh `onceWrapper` closure (which is always a function) and passes the
wrapper to `on`, so `on`'s type check never fires; a non-function callback
only throws later, when the wrapper is invoked. -/
def EventBus.onceArg (bus : EventBus) (e : String) (a : JsArg) (wid : Nat) :
    Except String (EventBus × Bool) :=
  match a with
  | JsArg.fn c => Except.ok (bus.on e (Listener.wrapOnce e c wid))
  | JsArg.notFn => Except.ok (bus.on e (Listener.wrapOnceBad e wid))

/-! ## Shared concrete fixtures for witnesses and counterexamples -/

/-- Environment of callbacks that do nothing and return normally. -/
def envPure : CbEnv := fun _ => { actions := [], throws := false }

/-- Environment in which callback 9 always throws. -/
def envThrow9 : CbEnv := fun c => { actions := [], throws := decide (c = 9) }

/-- Bus with callback 5 subscribed once to event `a`. -/
def busA : EventBus := (newEventBus.on "a" (Listener.plain 5)).1

/-- Bus with callback 0 subscribed twice to event `e` (duplicate registration). -/
def busDup : EventBus := (runOps envPure newEventBus [BusOp.opOn "e" 0, BusOp.opOn "e" 0]).1

/-- Bus with 50 distinct listeners registered for event `cap`. -/
def bus50 : EventBus :=
  (runOps envPure newEventBus ((List.range 50).map (fun i => BusOp.opOn "cap" i))).1

/-! ## Claims about the Event Bus -/

/-- C7: `publish` returns `true` iff at least one registered callback
executed without throwing; on an event name with zero subscribers it
returns `false` (and, being a total function of the model, throws nothing);
a throwing callback does not prevent the remaining callbacks from running
(every listener of the call-time snapshot is invoked) and does not by
itself make the call return `false` when another callback succeeded. -/
theorem emit_success_boolean (env : CbEnv) (bus : EventBus) (e : String) :
    (listenersOf bus e = [] → EventBus.emit env bus e = (bus, false, []))
    ∧ ((EventBus.emit env bus e).2.1 = true
        ↔ ∃ l ∈ listenersOf bus e, listenerOk env l = true)
    ∧ (EventBus.emit env bus e).2.2 = (listenersOf bus e).filterMap Listener.invokedId := by
  refine ⟨?_, ?_, emit_trace_snapshot env bus e⟩
  · intro h
    unfold EventBus.emit
    cases hh : mapGet? bus.events e with
    | none => rfl
    | some ls =>
        have hnil : ls = [] := by simpa [listenersOf, hh] using h
        subst hnil
        simp [emitList]
  · rw [emit_count]
    constructor
    · intro h
      have h2 : 0 < ((listenersOf bus e).filter (listenerOk env)).length := of_decide_eq_true h
      rcases List.exists_mem_of_length_pos h2 with ⟨l, hl⟩
      exact ⟨l, List.mem_of_mem_filter hl, List.of_mem_filter hl⟩
    · rintro ⟨l, hl, hok⟩
      apply decide_eq_true
      have hm : l ∈ (listenersOf bus e).filter (listenerOk env) :=
        List.mem_filter.mpr ⟨hl, hok⟩
      exact List.length_pos.mpr (fun hnil => by rw [hnil] at hm; exact List.not_mem_nil l hm)

/-- C7 witness: instantiated at the empty bus (no subscribers for `x`) and
at a bus where one listener throws and one succeeds. -/
theorem emit_success_boolean_witness :
    EventBus.emit envPure newEventBus "x" = (newEventBus, false, [])
    ∧ (EventBus.emit envThrow9 (runOps envThrow9 newEventBus [BusOp.opOn "e" 9, BusOp.opOn "e" 1]).1 "e").2.1 = true := by
  constructor
  · exact (emit_success_boolean envPure newEventBus "x").1 rfl
  · exact (emit_success_boolean envThrow9 _ "e").2.1.mpr
      ⟨Listener.plain 1, by decide, by decide⟩

set_option maxRecDepth 40000 in
/-- C8: for every event name the listener count never exceeds the
configured cap under any operation sequence (registration beyond the cap is
refused with a `false` return), the cap itself is never changed by the
operations, and concretely after 50 listeners on one name the 51st `on`
returns `false` and the bus still holds exactly 50 listeners for it. -/
theorem listener_cap_invariant (env : CbEnv) (bus : EventBus) (ops : List BusOp) :
    (busBounded bus → busBounded (runOps env bus ops).1)
    ∧ (runOps env bus ops).1.maxListeners = bus.maxListeners
    ∧ (bus50.listenerCount "cap" = 50
        ∧ (bus50.on "cap" (Listener.plain 50)).2 = false
        ∧ (bus50.on "cap" (Listener.plain 50)).1.listenerCount "cap" = 50) := by
  refine ⟨fun h => busBounded_runOps env ops bus h, runOps_max env ops bus, ?_, ?_, ?_⟩
  · decide
  · decide
  · decide

/-- C8 witness: the invariant applied to the empty bus and one registration. -/
theorem listener_cap_invariant_witness :
    busBounded (runOps envPure newEventBus [BusOp.opOn "cap" 7]).1 := by
  refine (listener_cap_invariant envPure newEventBus [BusOp.opOn "cap" 7]).1 ?_
  intro e
  simp [listenersOf, newEventBus, mapGet?]

/-- C10 counterexample: `once` called with a non-function does not throw at
registration (unlike `on`): it wraps the value and returns `on`'s boolean. -/
theorem onceArg_notFn_does_not_throw :
    newEventBus.onceArg "e" JsArg.notFn 0
      = Except.ok (newEventBus.on "e" (Listener.wrapOnceBad "e" 0))
    ∧ (newEventBus.on "e" (Listener.wrapOnceBad "e" 0)).2 = true := by
  exact ⟨rfl, by decide⟩

/-- C10 (amended): `on` with a non-function argument throws
`Error('Callback must be a function')` (an exception at the public
interface, unlike the cap-overflow failure which is a boolean return);
`once` with a non-function does not throw at registration — it registers a
wrapper and returns `on`'s result — and the failure only surfaces when the
wrapper is invoked, as a caught per-callback exception inside `emit`. -/
theorem on_non_function_throws (bus : EventBus) (e : String) (c : CbId) (wid : Nat)
    (env : CbEnv) :
    bus.onArg e JsArg.notFn = Except.error "Callback must be a function"
    ∧ bus.onArg e (JsArg.fn c) = Except.ok (bus.on e (Listener.plain c))
    ∧ bus.onceArg e JsArg.notFn wid = Except.ok (bus.on e (Listener.wrapOnceBad e wid))
    ∧ invokeListener env bus (Listener.wrapOnceBad e wid) = (bus, false, none) :=
  ⟨rfl, rfl, rfl, rfl⟩

/-- C1 counterexample: after duplicate registration, `off` removes only the
first occurrence, so the callback is still invoked by a publish performed
after the `off` call that removed it returned `true`. -/
theorem off_removed_but_still_invoked :
    (busDup.off "e" (Listener.plain 0)).2 = true
    ∧ ("e", 0) ∈ (runOps envPure (busDup.off "e" (Listener.plain 0)).1 [BusOp.opEmit "e"]).2 := by
  decide

/-- C1 (amended): `emit` invokes exactly the callbacks of the snapshot of
the listener list taken at call time, in subscription order, so mutations
during emission affect only future emits and a callback not registered at
call time (in particular one registered during the emit) is not invoked by
that emit; and once an `off` call has left the event with no registration
running the callback (which requires that the removed registration was its
only one for that event), the callback is never again invoked for that
event by any operation sequence that does not re-register it (neither at
top level nor from inside a callback body). -/
theorem emit_snapshot_and_no_reinvoke_after_off (env : CbEnv) (bus : EventBus)
    (e : String) (c : CbId) (ops : List BusOp) :
    ((EventBus.emit env bus e).2.2 = (listenersOf bus e).filterMap Listener.invokedId)
    ∧ (cbFreeOn bus e c = true → c ∉ (EventBus.emit env bus e).2.2)
    ∧ (cbFreeOn (bus.off e (Listener.plain c)).1 e c = true →
        envAvoidsAdd env e c →
        (∀ op ∈ ops, op.registers e c = false) →
        (e, c) ∉ (runOps env (bus.off e (Listener.plain c)).1 ops).2) := by
  refine ⟨emit_trace_snapshot env bus e, fun h => emit_trace_free env bus e c h, ?_⟩
  intro h1 h2 h3
  exact (runOps_free env e c ops _ h2 h3 h1).2

/-- C1 witness: callback 5, subscribed once to `a` and then unsubscribed,
is not invoked by later operations; and a callback absent from the
call-time snapshot is not invoked by that emit. -/
theorem emit_snapshot_and_no_reinvoke_after_off_witness :
    ("a", 5) ∉ (runOps envPure (busA.off "a" (Listener.plain 5)).1
        [BusOp.opEmit "a", BusOp.opOn "a" 6, BusOp.opEmit "a"]).2
    ∧ 5 ∉ (EventBus.emit envPure (newEventBus.on "a" (Listener.plain 6)).1 "a").2.2 :=
  ⟨(emit_snapshot_and_no_reinvoke_after_off envPure busA "a" 5
      [BusOp.opEmit "a", BusOp.opOn "a" 6, BusOp.opEmit "a"]).2.2
      (by decide) (fun c' a ha => absurd ha (List.not_mem_nil a)) (by decide),
   (emit_snapshot_and_no_reinvoke_after_off envPure (newEventBus.on "a" (Listener.plain 6)).1
      "a" 5 []).2.1 (by decide)⟩

/-- C2 counterexample: a `once` callback that throws is never removed — the
wrapper calls the callback before `off`, and `emit` swallows the exception
— so it is invoked again by the next publish (twice in total here) and its
wrapper is still subscribed afterwards. -/
theorem once_throwing_invoked_twice :
    (((runOps envThrow9 newEventBus
        [BusOp.opOnce "e" 9 0, BusOp.opEmit "e", BusOp.opEmit "e"]).2).filter
        (fun q => decide (q.2 = 9))).length = 2
    ∧ (runOps envThrow9 newEventBus
        [BusOp.opOnce "e" 9 0, BusOp.opEmit "e", BusOp.opEmit "e"]).1.listenerCount "e" = 1 := by
  decide

theorem runOps_cons_trace (env : CbEnv) (bus : EventBus) (op : BusOp) (ops : List BusOp) :
    (runOps env bus (op :: ops)).2
      = (runOp env bus op).2 ++ (runOps env (runOp env bus op).1 ops).2 := rfl

/-- C2 (amended): a callback registered via `once` on a fresh bus is
invoked exactly once across any positive number of subsequent publishes of
that event name, provided the callback returns normally (a throwing
callback is not removed: the wrapper unsubscribes only after the callback
returns) and no callback body re-registers or removes a listener running
it. -/
theorem once_invoked_exactly_once (env : CbEnv) (e : String) (c : CbId) (wid n : Nat)
    (henv : envAvoidsTouch env e c) (ht : (env c).throws = false) (hn : 1 ≤ n) :
    (((runOps env newEventBus
        (BusOp.opOnce e c wid :: List.replicate n (BusOp.opEmit e))).2).filter
        (fun q => decide (q.2 = c))).length = 1 := by
  obtain ⟨m, rfl⟩ : ∃ m, n = m + 1 := ⟨n - 1, (Nat.succ_pred_eq_of_pos hn).symm⟩
  have hbus1l : listenersOf (newEventBus.once e c wid).1 e = [Listener.wrapOnce e c wid] := by
    show listenersOf (newEventBus.on e (Listener.wrapOnce e c wid)).1 e = _
    rw [listenersOf_on_self]
    have h0 : listenersOf newEventBus e = [] := rfl
    rw [h0, if_neg (by decide)]
    rfl
  have hbus1get : mapGet? (newEventBus.once e c wid).1.events e
      = some [Listener.wrapOnce e c wid] := by
    have hh := hbus1l
    unfold listenersOf at hh
    rcases hg : mapGet? (newEventBus.once e c wid).1.events e with _ | x
    · rw [hg] at hh
      simp at hh
    · rw [hg] at hh
      simp only [Option.getD_some] at hh
      rw [hh]
  have hemitTr : (EventBus.emit env (newEventBus.once e c wid).1 e).2.2 = [c] := by
    rw [emit_trace_snapshot, hbus1l]
    rfl
  have hbus3 : (EventBus.emit env (newEventBus.once e c wid).1 e).1
      = (invokeListener env (newEventBus.once e c wid).1 (Listener.wrapOnce e c wid)).1 := by
    unfold EventBus.emit
    rw [hbus1get]
    rfl
  have hment : mentioners (newEventBus.once e c wid).1 e c = [Listener.wrapOnce e c wid] := by
    unfold mentioners
    rw [hbus1l]
    simp [Listener.mentions]
  have hfree3 : cbFreeOn (EventBus.emit env (newEventBus.once e c wid).1 e).1 e c = true := by
    rw [hbus3]
    exact invoke_wrapOnce_clears env _ e c wid henv ht hment
  have henvAdd : envAvoidsAdd env e c := fun c' a ha => (henv c' a ha).1
  have hops : ∀ op ∈ List.replicate m (BusOp.opEmit e), BusOp.registers op e c = false := by
    intro op hop
    rw [List.eq_of_mem_replicate hop]
    rfl
  have hrest := (runOps_free env e c (List.replicate m (BusOp.opEmit e)) _ henvAdd hops hfree3).2
  have hfst := runOps_replicate_emit_fst env e m (EventBus.emit env (newEventBus.once e c wid).1 e).1
  have hfilter2 : ((runOps env (EventBus.emit env (newEventBus.once e c wid).1 e).1
      (List.replicate m (BusOp.opEmit e))).2.filter (fun q => decide (q.2 = c))) = [] := by
    rw [List.filter_eq_nil_iff]
    rintro ⟨q1, q2⟩ hq hqc
    have h1 : q1 = e := hfst _ hq
    have h2 : q2 = c := of_decide_eq_true hqc
    subst h1
    subst h2
    exact hrest hq
  rw [runOps_cons_trace]
  have h01 : (runOp env newEventBus (BusOp.opOnce e c wid)).2 = [] := rfl
  have h02 : (runOp env newEventBus (BusOp.opOnce e c wid)).1 = (newEventBus.once e c wid).1 := rfl
  rw [h01, h02, List.nil_append, List.replicate_succ, runOps_cons_trace]
  have h03 : (runOp env (newEventBus.once e c wid).1 (BusOp.opEmit e)).2
      = (EventBus.emit env (newEventBus.once e c wid).1 e).2.2.map (fun x => (e, x)) := rfl
  have h04 : (runOp env (newEventBus.once e c wid).1 (BusOp.opEmit e)).1
      = (EventBus.emit env (newEventBus.once e c wid).1 e).1 := rfl
  rw [h03, h04, hemitTr, List.filter_append, hfilter2]
  simp

/-- C2 witness: a well-behaved callback registered via `once` and published
twice runs exactly once. -/
theorem once_invoked_exactly_once_witness :
    (((runOps envPure newEventBus
        (BusOp.opOnce "e" 3 0 :: List.replicate 2 (BusOp.opEmit "e"))).2).filter
        (fun q => decide (q.2 = 3))).length = 1 :=
  once_invoked_exactly_once envPure "e" 3 0 2
    (fun c' a ha => absurd ha (List.not_mem_nil a)) rfl (by decide)

theorem not_mem_removeFirst_self {α : Type} [DecidableEq α] (xs : List α) (a : α)
    (h : xs.Nodup) : a ∉ removeFirst xs a := by
  induction xs with
  | nil => simp [removeFirst]
  | cons y ys ih =>
    by_cases hy : y = a
    · subst hy
      simp only [removeFirst, if_pos rfl]
      exact (List.nodup_cons.mp h).1
    · simp only [removeFirst, hy, if_false]
      intro hmem
      rcases List.mem_cons.mp hmem with hmem | hmem
      · exact hy hmem.symm
      · exact ih (List.nodup_cons.mp h).2 hmem

/-! ## Claims about the widget lifecycle -/

/-- A healthy widget ready for its first refresh. -/
def w0 : Widget :=
  { isInitialized := true, isLoading := false, hasContainer := true,
    content := ContainerContent.normal, loadingClass := false,
    loadingOverlay := false, retryArmed := false, refreshTimer := none,
    autoRefreshEnabled := true, refreshIntervalMs := 300000,
    resizeListenerAttached := true }

/-- C5: when `loadData()` rejects during `refresh()`, the widget reaches
the error state (the container shows the error panel with the error's
message, or the fallback text for an empty message, and the one-shot retry
listener is armed), exactly one `widget:error` event carrying the widget
name and the error is published, and `setLoadingState(true)` is matched 1:1
by `setLoadingState(false)` on the error path, leaving no loading flag,
class or overlay behind. -/
theorem refresh_error_path (w : Widget) (name msg : String) (rr : Except String Unit)
    (h : w.isLoading = false) :
    (Widget.refresh w name (Except.error msg) rr).widget.content
        = ContainerContent.errorPanel (errMessage msg)
    ∧ (Widget.refresh w name (Except.error msg) rr).widget.retryArmed = true
    ∧ (Widget.refresh w name (Except.error msg) rr).events
        = [WidgetEvent.widgetError name msg]
    ∧ ((Widget.refresh w name (Except.error msg) rr).events.filter
        (fun ev => match ev with
          | WidgetEvent.widgetError _ _ => true
          | _ => false)).length = 1
    ∧ (Widget.refresh w name (Except.error msg) rr).loadingCalls = [true, false]
    ∧ (Widget.refresh w name (Except.error msg) rr).widget.isLoading = false
    ∧ (Widget.refresh w name (Except.error msg) rr).widget.loadingClass = false
    ∧ (Widget.refresh w name (Except.error msg) rr).widget.loadingOverlay = false := by
  simp [Widget.refresh, h, setLoadingState, handleError, showErrorState]

/-- C5 witness: a concrete widget whose data load throws `boom`. -/
theorem refresh_error_path_witness :
    (Widget.refresh w0 "x" (Except.error "boom") (Except.ok ())).widget.content
        = ContainerContent.errorPanel (errMessage "boom")
    ∧ (Widget.refresh w0 "x" (Except.error "boom") (Except.ok ())).events
        = [WidgetEvent.widgetError "x" "boom"]
    ∧ (Widget.refresh w0 "x" (Except.error "boom") (Except.ok ())).loadingCalls
        = [true, false] := by
  have h := refresh_error_path w0 "x" "boom" (Except.ok ()) rfl
  exact ⟨h.1, h.2.2.1, h.2.2.2.2.1⟩

/-- C6: `refresh()` while a prior refresh has not completed (the loading
flag is set) is a no-op: the widget is unchanged, nothing is published, no
loading-state transitions happen and `loadData()` is not invoked — the
at-most-one-concurrent-refresh guard. -/
theorem refresh_noop_when_loading (w : Widget) (name : String)
    (lr rr : Except String Unit) (h : w.isLoading = true) :
    Widget.refresh w name lr rr
      = { widget := w, events := [], loadingCalls := [], loadDataCalled := false } := by
  simp [Widget.refresh, h]

/-- C6 witness: a loading widget refreshed again. -/
theorem refresh_noop_when_loading_witness :
    Widget.refresh { w0 with isLoading := true } "x" (Except.ok ()) (Except.ok ())
      = { widget := { w0 with isLoading := true }, events := [], loadingCalls := [],
          loadDataCalled := false } :=
  refresh_noop_when_loading { w0 with isLoading := true } "x" (Except.ok ()) (Except.ok ()) rfl

/-- C9: `destroy()` is idempotent (the second call reproduces exactly the
state and timer table of the first, and the model is total, so neither call
throws); after each call the refresh timer handle is cleared and the timer
is no longer live, and the container's rendered content is empty. -/
theorem destroy_idempotent (w : Widget) (live : List Nat) :
    Widget.destroy (Widget.destroy w live).1 (Widget.destroy w live).2
        = Widget.destroy w live
    ∧ (Widget.destroy w live).1.refreshTimer = none
    ∧ (∀ id, w.refreshTimer = some id → live.Nodup → id ∉ (Widget.destroy w live).2)
    ∧ (w.hasContainer = true →
        (Widget.destroy w live).1.content = ContainerContent.cleared
        ∧ (Widget.destroy (Widget.destroy w live).1 (Widget.destroy w live).2).1.content
            = ContainerContent.cleared) := by
  rcases ht : w.refreshTimer with _ | id
  · by_cases hc : w.hasContainer = true
    · refine ⟨?_, ?_, ?_, ?_⟩
      · simp [Widget.destroy, Widget.stopAutoRefresh, ht, hc]
      · simp [Widget.destroy, Widget.stopAutoRefresh, ht, hc]
      · intro id hid
        exact absurd hid (by simp)
      · intro _
        constructor
        · simp [Widget.destroy, Widget.stopAutoRefresh, ht, hc]
        · simp [Widget.destroy, Widget.stopAutoRefresh, ht, hc]
    · refine ⟨?_, ?_, ?_, fun hcc => absurd hcc hc⟩
      · simp [Widget.destroy, Widget.stopAutoRefresh, ht, hc]
      · simp [Widget.destroy, Widget.stopAutoRefresh, ht, hc]
      · intro id hid
        exact absurd hid (by simp)
  · by_cases hc : w.hasContainer = true
    · refine ⟨?_, ?_, ?_, ?_⟩
      · simp [Widget.destroy, Widget.stopAutoRefresh, ht, hc]
      · simp [Widget.destroy, Widget.stopAutoRefresh, ht, hc]
      · intro id2 hid hnd
        have hid2 : id2 = id := (Option.some.inj hid).symm
        subst hid2
        simp only [Widget.destroy, Widget.stopAutoRefresh, ht]
        exact not_mem_removeFirst_self live id2 hnd
      · intro _
        constructor
        · simp [Widget.destroy, Widget.stopAutoRefresh, ht, hc]
        · simp [Widget.destroy, Widget.stopAutoRefresh, ht, hc]
    · refine ⟨?_, ?_, ?_, fun hcc => absurd hcc hc⟩
      · simp [Widget.destroy, Widget.stopAutoRefresh, ht, hc]
      · simp [Widget.destroy, Widget.stopAutoRefresh, ht, hc]
      · intro id2 hid hnd
        have hid2 : id2 = id := (Option.some.inj hid).symm
        subst hid2
        simp only [Widget.destroy, Widget.stopAutoRefresh, ht]
        exact not_mem_removeFirst_self live id2 hnd

/-- C9 witness: a widget with a live timer destroyed twice. -/
theorem destroy_idempotent_witness :
    Widget.destroy (Widget.destroy { w0 with refreshTimer := some 4 } [4]).1
        (Widget.destroy { w0 with refreshTimer := some 4 } [4]).2
      = Widget.destroy { w0 with refreshTimer := some 4 } [4]
    ∧ (4 : Nat) ∉ (Widget.destroy { w0 with refreshTimer := some 4 } [4]).2
    ∧ (Widget.destroy { w0 with refreshTimer := some 4 } [4]).1.content
        = ContainerContent.cleared := by
  have h := destroy_idempotent { w0 with refreshTimer := some 4 } [4]
  exact ⟨h.1, h.2.2.1 4 rfl (by decide), (h.2.2.2 rfl).1⟩

/-! ## Auto-Refresh Coordinator: lemmas -/

/-- The `Object.entries(...).forEach` loop of `startAutoRefresh`, over an
explicit entry list (for induction). -/
def ratesFold (s : RTState) (rs : List (String × Nat)) : RTState :=
  rs.foldl (fun s p => if 0 < p.2 then s.startWidgetRefresh p.1 p.2 else s) s

theorem startAutoRefresh_eq_ratesFold (st : RTState) :
    st.startAutoRefresh = ratesFold st st.refreshRates := rfl

theorem startWR_none_eq (st : RTState) (w : String) (i : Nat)
    (hnone : mapGet? st.intervals w = none) (hon : st.isOnline = true) (hi : 0 < i) :
    st.startWidgetRefresh w i
      = { st with liveTimers := st.liveTimers ++ [st.nextTimerId],
                  intervals := mapSet st.intervals w st.nextTimerId,
                  nextTimerId := st.nextTimerId + 1 } := by
  unfold RTState.startWidgetRefresh RTState.stopWidgetRefresh
  rw [hnone]
  simp [hon, Nat.pos_iff_ne_zero.mp hi]

theorem startWR_none_isActive_self (st : RTState) (w : String) (i : Nat)
    (hnone : mapGet? st.intervals w = none) (hon : st.isOnline = true) (hi : 0 < i) :
    (st.startWidgetRefresh w i).isActive w = true := by
  rw [startWR_none_eq st w i hnone hon hi]
  unfold RTState.isActive
  rw [mapGet?_mapSet_self]
  simp

theorem startWR_none_isActive_other (st : RTState) (w w' : String) (i : Nat)
    (hnone : mapGet? st.intervals w = none) (hon : st.isOnline = true) (hi : 0 < i)
    (hne : w' ≠ w)
    (hfresh : ∀ k id, mapGet? st.intervals k = some id → id < st.nextTimerId) :
    (st.startWidgetRefresh w i).isActive w' = st.isActive w' := by
  rw [startWR_none_eq st w i hnone hon hi]
  unfold RTState.isActive
  rw [mapGet?_mapSet_ne _ _ _ _ hne]
  cases hg : mapGet? st.intervals w' with
  | none => rfl
  | some id =>
      have hlt : id < st.nextTimerId := hfresh w' id hg
      apply decide_eq_decide.mpr
      simp only [List.mem_append, List.mem_singleton]
      constructor
      · rintro (h | h)
        · exact h
        · exact absurd h (Nat.ne_of_lt hlt)
      · exact fun h => Or.inl h

theorem startWR_isOnline (st : RTState) (w : String) (i : Nat) :
    (st.startWidgetRefresh w i).isOnline = st.isOnline := by
  unfold RTState.startWidgetRefresh RTState.stopWidgetRefresh
  dsimp only
  split
  · split
    · rfl
    · rfl
  · split
    · rfl
    · rfl

theorem any_pos_of_not_mem (rs : List (String × Nat)) (w : String)
    (h : ∀ p ∈ rs, p.1 ≠ w) :
    rs.any (fun p => decide (p.1 = w) && decide (0 < p.2)) = false := by
  rw [List.any_eq_false]
  intro p hp
  simp [h p hp]

theorem any_pos_eq_lookup (rs : List (String × Nat)) (w : String)
    (hnd : (rs.map Prod.fst).Nodup) :
    rs.any (fun p => decide (p.1 = w) && decide (0 < p.2))
      = (match mapGet? rs w with
         | some i => decide (0 < i)
         | none => false) := by
  induction rs with
  | nil => rfl
  | cons p rest ih =>
      rcases p with ⟨k, i⟩
      rw [List.map_cons, List.nodup_cons] at hnd
      by_cases hk : k = w
      · subst hk
        have hrest : rest.any (fun p => decide (p.1 = k) && decide (0 < p.2)) = false := by
          apply any_pos_of_not_mem
          intro q hq hqk
          have hmem : q.1 ∈ List.map Prod.fst rest := List.mem_map_of_mem Prod.fst hq
          rw [hqk] at hmem
          exact hnd.1 hmem
        simp [List.any_cons, hrest, mapGet?]
      · simp [List.any_cons, hk, mapGet?, ih hnd.2]

theorem ratesFold_spec (rs : List (String × Nat)) (s : RTState)
    (hon : s.isOnline = true)
    (hnd : (rs.map Prod.fst).Nodup)
    (hdis : ∀ p ∈ rs, mapGet? s.intervals p.1 = none)
    (hfresh : ∀ k id, mapGet? s.intervals k = some id → id < s.nextTimerId) :
    ∀ w, (ratesFold s rs).isActive w
      = (rs.any (fun p => decide (p.1 = w) && decide (0 < p.2)) || s.isActive w) := by
  induction rs generalizing s with
  | nil =>
      intro w
      simp [ratesFold]
  | cons p rest ih =>
      rcases p with ⟨k, i⟩
      rw [List.map_cons, List.nodup_cons] at hnd
      have hknone : mapGet? s.intervals k = none := hdis (k, i) (by simp)
      by_cases hi : 0 < i
      · have heq := startWR_none_eq s k i hknone hon hi
        have hfold : ratesFold s ((k, i) :: rest) = ratesFold (s.startWidgetRefresh k i) rest := by
          simp [ratesFold, List.foldl_cons, hi]
        have hon1 : (s.startWidgetRefresh k i).isOnline = true := by
          rw [startWR_isOnline]
          exact hon
        have hdis1 : ∀ q ∈ rest, mapGet? (s.startWidgetRefresh k i).intervals q.1 = none := by
          intro q hq
          rw [heq]
          have hqk : q.1 ≠ k := by
            intro hh
            have hmem : q.1 ∈ List.map Prod.fst rest := List.mem_map_of_mem Prod.fst hq
            rw [hh] at hmem
            exact hnd.1 hmem
          show mapGet? (mapSet s.intervals k s.nextTimerId) q.1 = none
          rw [mapGet?_mapSet_ne _ _ _ _ hqk]
          exact hdis q (by simp [hq])
        have hfresh1 : ∀ k2 id, mapGet? (s.startWidgetRefresh k i).intervals k2 = some id
            → id < (s.startWidgetRefresh k i).nextTimerId := by
          intro k2 id hg
          have hg2 : mapGet? (mapSet s.intervals k s.nextTimerId) k2 = some id := by
            rw [heq] at hg
            exact hg
          have hnext : (s.startWidgetRefresh k i).nextTimerId = s.nextTimerId + 1 := by
            rw [heq]
          rw [hnext]
          by_cases hk2 : k2 = k
          · subst hk2
            rw [mapGet?_mapSet_self] at hg2
            rw [← Option.some.inj hg2]
            exact Nat.lt_succ_self _
          · rw [mapGet?_mapSet_ne _ _ _ _ hk2] at hg2
            exact Nat.lt_succ_of_lt (hfresh k2 id hg2)
        have ihs := ih (s.startWidgetRefresh k i) hon1 hnd.2 hdis1 hfresh1
        intro w
        rw [hfold, ihs w]
        by_cases hw : w = k
        · subst hw
          have hrest : rest.any (fun p => decide (p.1 = w) && decide (0 < p.2)) = false := by
            apply any_pos_of_not_mem
            intro q hq hqw
            have hmem : q.1 ∈ List.map Prod.fst rest := List.mem_map_of_mem Prod.fst hq
            rw [hqw] at hmem
            exact hnd.1 hmem
          rw [hrest, startWR_none_isActive_self s w i hknone hon hi]
          have hsw : s.isActive w = false := by
            unfold RTState.isActive
            rw [hknone]
          simp [List.any_cons, hi, hsw]
        · rw [startWR_none_isActive_other s k w i hknone hon hi hw hfresh]
          have hw2 : ¬ k = w := fun hh => hw hh.symm
          simp [List.any_cons, hw2]
      · have hfold : ratesFold s ((k, i) :: rest) = ratesFold s rest := by
          simp [ratesFold, List.foldl_cons, hi]
        have ihs := ih s hon hnd.2 (fun q hq => hdis q (by simp [hq])) hfresh
        intro w
        rw [hfold, ihs w]
        by_cases hw : w = k
        · subst hw
          simp [List.any_cons, hi]
        · have hw2 : ¬ k = w := fun hh => hw hh.symm
          simp [List.any_cons, hw2]

/-- Coordinator state with auto-refresh running and `tasks` then stopped
via the public `stopWidgetRefresh`. -/
def stStopped : RTState := ((newRealtime true).startAutoRefresh).stopWidgetRefresh "tasks"

/-- Coordinator state whose active set equals the configuration-derived set. -/
def stCfg : RTState := (newRealtime true).pauseAutoRefresh.resumeAutoRefresh

/-- C3 counterexample: from a state in which the `tasks` timer was stopped
(a state reached only through documented operations), `pauseAutoRefresh`
followed by `resumeAutoRefresh` does not restore the pre-pause active set:
`tasks` was inactive before the pause and is active after the resume,
because resume re-derives the set from the configuration. -/
theorem pause_resume_not_restoring :
    stStopped.isActive "tasks" = false
    ∧ (stStopped.pauseAutoRefresh.resumeAutoRefresh).isActive "tasks" = true := by
  decide

/-- C3 (amended): when the coordinator is online and the configuration maps
each widget name once, `pauseAutoRefresh` followed by `resumeAutoRefresh`
makes exactly the configuration-derived set (the widgets with a positive
configured rate) active; consequently it restores the pre-pause active set
precisely when that set already equalled the configuration-derived set, as
it does after `startAutoRefresh` under the online/offline discipline. -/
theorem pause_resume_restores_configured (st : RTState)
    (hon : st.isOnline = true)
    (hnd : (st.refreshRates.map Prod.fst).Nodup) :
    (∀ w, (st.pauseAutoRefresh.resumeAutoRefresh).isActive w = st.ratePositive w)
    ∧ ((∀ w, st.isActive w = st.ratePositive w) →
        ∀ w, (st.pauseAutoRefresh.resumeAutoRefresh).isActive w = st.isActive w) := by
  have hmain : ∀ w, (st.pauseAutoRefresh.resumeAutoRefresh).isActive w = st.ratePositive w := by
    intro w
    show (RTState.startAutoRefresh { st.pauseAutoRefresh with intervals := [] }).isActive w = _
    rw [startAutoRefresh_eq_ratesFold]
    have hon0 : ({ st.pauseAutoRefresh with intervals := [] } : RTState).isOnline = true := hon
    have h := ratesFold_spec st.refreshRates { st.pauseAutoRefresh with intervals := [] }
        hon0 hnd (fun p hp => rfl) (fun k id hg => Option.noConfusion hg) w
    show (ratesFold { st.pauseAutoRefresh with intervals := [] } st.refreshRates).isActive w = _
    rw [h, any_pos_eq_lookup st.refreshRates w hnd]
    cases hg : mapGet? st.refreshRates w <;> simp [RTState.ratePositive, RTState.isActive, hg, mapGet?]
  refine ⟨hmain, ?_⟩
  intro hiff w
  rw [hmain w, ← hiff w]

/-- C3 witness: a state whose active set is the configuration-derived one
(reached by a resume) has its active set restored by pause-then-resume; and
on the fresh coordinator the post-resume active set is the configured one. -/
theorem pause_resume_restores_configured_witness :
    (stCfg.pauseAutoRefresh.resumeAutoRefresh).isActive "tasks" = stCfg.isActive "tasks"
    ∧ ((newRealtime true).pauseAutoRefresh.resumeAutoRefresh).isActive "tasks"
        = (newRealtime true).ratePositive "tasks" := by
  have h1 := pause_resume_restores_configured (newRealtime true) rfl (by decide)
  have h2 := pause_resume_restores_configured stCfg (by decide) (by decide)
  have hrr : stCfg.refreshRates = (newRealtime true).refreshRates := by decide
  have hrp : ∀ w, stCfg.ratePositive w = (newRealtime true).ratePositive w := by
    intro w
    unfold RTState.ratePositive
    rw [hrr]
  have hactive : ∀ w, stCfg.isActive w = stCfg.ratePositive w :=
    fun w => ((h1.1 w).trans (hrp w).symm)
  exact ⟨h2.2 hactive "tasks", h1.1 "tasks"⟩

/-! ## Claims about the storage gateway -/

/-- Empty storage. -/
def stEmpty : StorageState := { localStore := [], memoryStore := [] }

/-- Storage whose persistent store holds an unparseable value. -/
def stBad : StorageState := { localStore := [("dashboard_bad", "oops")], memoryStore := [] }

/-- A representative stored payload. -/
def v0 : JValue :=
  JValue.obj [("a", JValue.num 1), ("b", JValue.arr [JValue.bool true, JValue.null])]

/-- C4 counterexample: with the in-memory fallback in use, `setItem` of the
JSON-serializable value `false` followed by `getItem` returns `null`, not a
value deep-equal to `false` — the fallback read is `get(fullKey) || null`,
which collapses every falsy stored value to `null`. -/
theorem memory_fallback_loses_falsy :
    getItem jsonParse false (setItem jsonStringify false stEmpty "k" (JValue.bool false)).1 "k"
      = JValue.null
    ∧ JValue.null ≠ JValue.bool false :=
  ⟨rfl, fun h => JValue.noConfusion h⟩

/-- C4 (amended): with the persistent store available, `setItem` then
`getItem` returns the stored value whenever the platform codec round-trips
it (as `JSON.parse`/`JSON.stringify` do for JSON-serializable values),
`getItem` of a never-set key returns `null`, and `getItem` of a stored
string that is corrupt (unparseable) returns `null` instead of throwing;
with the in-memory fallback, `getItem` of a never-set key returns `null`
and the round-trip holds for truthy values (and trivially for `null`), but
falsy values (`false`, `0`, the empty string) are read back as `null`. -/
theorem storage_roundtrip (parse : String → Option JValue) (stringify : JValue → String)
    (st : StorageState) (k : String) (v : JValue) :
    (parse (stringify v) = some v → stringify v ≠ "" →
        getItem parse true (setItem stringify true st k v).1 k = v)
    ∧ (mapGet? st.localStore (fullKey k) = none → getItem parse true st k = JValue.null)
    ∧ (∀ s, mapGet? st.localStore (fullKey k) = some s → s ≠ "" → parse s = none →
        getItem parse true st k = JValue.null)
    ∧ ((v.truthy = true ∨ v = JValue.null) →
        getItem parse false (setItem stringify false st k v).1 k = v)
    ∧ (mapGet? st.memoryStore (fullKey k) = none → getItem parse false st k = JValue.null) := by
  have getL : ∀ (st' : StorageState),
      getItem parse true st' k
        = (match mapGet? st'.localStore (fullKey k) with
           | none => JValue.null
           | some item =>
               if item = "" then JValue.null
               else match parse item with
                    | some x => x
                    | none => JValue.null) := fun _ => rfl
  have getM : ∀ (st' : StorageState),
      getItem parse false st' k
        = (match mapGet? st'.memoryStore (fullKey k) with
           | none => JValue.null
           | some x => if x.truthy then x else JValue.null) := fun _ => rfl
  have setL : (setItem stringify true st k v).1.localStore
      = mapSet st.localStore (fullKey k) (stringify v) := rfl
  have setM : (setItem stringify false st k v).1.memoryStore
      = mapSet st.memoryStore (fullKey k) v := rfl
  refine ⟨?_, ?_, ?_, ?_, ?_⟩
  · intro hrt hne
    rw [getL, setL, mapGet?_mapSet_self]
    show (if stringify v = "" then JValue.null
          else match parse (stringify v) with
               | some x => x
               | none => JValue.null) = v
    rw [if_neg hne, hrt]
  · intro hnone
    rw [getL, hnone]
  · intro s hsome hne hbad
    rw [getL, hsome]
    show (if s = "" then JValue.null
          else match parse s with
               | some x => x
               | none => JValue.null) = JValue.null
    rw [if_neg hne, hbad]
  · intro htr
    rw [getM, setM, mapGet?_mapSet_self]
    show (if v.truthy then v else JValue.null) = v
    rcases htr with htr | htr
    · rw [if_pos htr]
    · subst htr
      rfl
  · intro hnone
    rw [getM, hnone]

/-- C4 witness: the concrete codec and payload exercise every branch:
persistent round-trip of `v0`, `null` for a missing key, `null` for the
corrupt entry, memory-fallback round-trip of the truthy `v0`, and `null`
for a missing key in fallback mode. -/
theorem storage_roundtrip_witness :
    getItem jsonParse true (setItem jsonStringify true stEmpty "k" v0).1 "k" = v0
    ∧ getItem jsonParse true stEmpty "missing" = JValue.null
    ∧ getItem jsonParse true stBad "bad" = JValue.null
    ∧ getItem jsonParse false (setItem jsonStringify false stEmpty "k" v0).1 "k" = v0
    ∧ getItem jsonParse false stEmpty "missing" = JValue.null :=
  ⟨(storage_roundtrip jsonParse jsonStringify stEmpty "k" v0).1 rfl (by decide),
   (storage_roundtrip jsonParse jsonStringify stEmpty "missing" v0).2.1 rfl,
   (storage_roundtrip jsonParse jsonStringify stBad "bad" v0).2.2.1 "oops" rfl (by decide) rfl,
   (storage_roundtrip jsonParse jsonStringify stEmpty "k" v0).2.2.2.1 (Or.inl rfl),
   (storage_roundtrip jsonParse jsonStringify stEmpty "missing" v0).2.2.2.2 rfl⟩

end Dashboard
